import Mathlib

/-!
Verification development for the PorterAI command interpreter
(`server/src/controllers/aiController.ts`).

The TypeScript controller is shallowly embedded here:

* Strings are Lean `String`s; the regex tests used by the controller are
  implemented as explicit scanners over `List Char`, following JavaScript
  regex semantics (leftmost match, greedy quantifiers with the backtracking
  behaviour relevant to each concrete pattern, ASCII word boundaries).
* `Date.now()` is modelled as a `Nat` millisecond clock carried in an
  environment record; `Math.random().toString(36).slice(2, 8)` is modelled
  as an arbitrary string parameter of that environment.
* The Groq structured-extraction backend and the platform JSON parser are
  external collaborators; their combined outcome is modelled by the
  `LLMOutcome` type (absent backend / thrown call / unparsable output /
  successfully parsed JSON fields).
* The Mongo order store (`models/Order.ts` is not part of the sources) is
  modelled from the spec: a list of `Order` records with exact string-match
  lookup on `trackingId`, creation appending to the list, first-match
  update and delete, and stable sorting for the list/next-pickup queries.
* The per-user conversation history only accumulates messages and never
  affects any branch's JSON response, so it is elided from the embedding.
-/

/-! ## ASCII character model of the JavaScript string primitives -/

/-- ASCII model of JavaScript `String.prototype.toLowerCase`. -/
def jsLowerChar (c : Char) : Char :=
  if 65 ≤ c.toNat ∧ c.toNat ≤ 90 then Char.ofNat (c.toNat + 32) else c

/-- ASCII model of JavaScript `String.prototype.toUpperCase`. -/
def jsUpperChar (c : Char) : Char :=
  if 97 ≤ c.toNat ∧ c.toNat ≤ 122 then Char.ofNat (c.toNat - 32) else c

/-- Lowercase a whole string (JS `text.toLowerCase()`), ASCII model. -/
def jsToLower (s : String) : String := ⟨s.toList.map jsLowerChar⟩

/-- Uppercase a whole string (JS `text.toUpperCase()`), ASCII model. -/
def jsToUpper (s : String) : String := ⟨s.toList.map jsUpperChar⟩

/-- JavaScript regex word character (`\w`): ASCII alphanumeric or `_`. -/
def isWordChar (c : Char) : Bool := c.isAlphanum || c == '_'

/-- Characters of the `[A-Za-z0-9\-]` class used for id captures. -/
def isIdChar (c : Char) : Bool := c.isAlphanum || c == '-'

/-- JavaScript regex whitespace (`\s`), restricted to the ASCII blanks that
can occur in the modelled inputs. -/
def isJsSpace (c : Char) : Bool := c == ' ' || c == '\t' || c == '\n' || c == '\r'

/-- `listStartsWith l p` : `p` is a literal prefix of `l` (case sensitive). -/
def listStartsWith : List Char → List Char → Bool
  | _, [] => true
  | [], _ :: _ => false
  | c :: cs, p :: ps => c == p && listStartsWith cs ps

/-- `ciStartsWith l p` : `p` (given lowercase) is a prefix of `l` up to
ASCII case, i.e. a literal match under a `/i` flag. -/
def ciStartsWith : List Char → List Char → Bool
  | _, [] => true
  | [], _ :: _ => false
  | c :: cs, p :: ps => jsLowerChar c == p && ciStartsWith cs ps

/-- `listContainsPat pat hay` : some suffix of `hay` starts with `pat`
(JS `regex.test` for a literal pattern with no boundaries). -/
def listContainsPat (pat : List Char) : List Char → Bool
  | [] => listStartsWith [] pat
  | c :: cs => listStartsWith (c :: cs) pat || listContainsPat pat cs

/-- String-level containment of a literal pattern. -/
def strContains (hay pat : String) : Bool := listContainsPat pat.toList hay.toList

/-- Match `pat` at the head of `hay` and require a word boundary after it
(`pat\b` for a pattern ending in a word character): the following character,
if any, must not be a word character. -/
def wbTail : List Char → List Char → Bool
  | [], [] => true
  | c :: _, [] => !isWordChar c
  | [], _ :: _ => false
  | c :: cs, p :: ps => c == p && wbTail cs ps

/-- Scan for `\bpat\b` (patterns starting and ending with word characters):
an occurrence of `pat` preceded by start-of-string or a non-word character
and followed by end-of-string or a non-word character. `prev` is the
character just before the current position. -/
def containsWBFrom (pat : List Char) : Option Char → List Char → Bool
  | prev, l =>
    ((match prev with | none => true | some c => !isWordChar c) && wbTail l pat) ||
    (match l with
     | [] => false
     | c :: cs => containsWBFrom pat (some c) cs)

/-- `containsWB hay pat` : JS `/\bpat\b/.test(hay)` for a literal `pat`
made of word characters. -/
def containsWB (hay pat : List Char) : Bool := containsWBFrom pat none hay

/-- Case-insensitive variant of `containsWB` (JS `/\bpat\b/i.test(hay)`,
with `pat` given lowercase). -/
def containsWBci (hay pat : List Char) : Bool :=
  containsWB (hay.map jsLowerChar) pat

/-- Generic leftmost-match scanner: try the position-local matcher `f` at
every suffix, left to right, threading the previous character. -/
def scanWithPrev (f : Option Char → List Char → Option α) :
    Option Char → List Char → Option α
  | prev, [] =>
    match f prev [] with
    | some r => some r
    | none => none
  | prev, c :: cs =>
    match f prev (c :: cs) with
    | some r => some r
    | none => scanWithPrev f (some c) cs

/-! ## Base-36 rendering and tracking-id generation -/

/-- One base-36 digit as rendered by JS `Number.prototype.toString(36)`
(digits then lowercase letters). -/
def base36Digit (n : Nat) : Char :=
  if n < 10 then Char.ofNat (48 + n) else Char.ofNat (87 + n)

/-- Fuel-bounded base-36 digit expansion; the fuel strictly exceeds the
number of division steps whenever `n < fuel`, so `natToBase36List` below
never hits the fuel-exhausted branch. -/
def natToBase36Go : Nat → Nat → List Char
  | 0, _ => []
  | f + 1, n =>
    if n < 36 then [base36Digit n]
    else natToBase36Go f (n / 36) ++ [base36Digit (n % 36)]

/-- `natToBase36List n` : digits of `n` in base 36, most significant first,
as JS `n.toString(36)` renders a natural number. -/
def natToBase36List (n : Nat) : List Char := natToBase36Go (n + 1) n

/-- JS `n.toString(36)` for a natural number. -/
def natToBase36 (n : Nat) : String := ⟨natToBase36List n⟩

/-- `makeTrackingId` from the controller:
`"ORD-" + Date.now().toString(36) + Math.random().toString(36).slice(2, 8).toUpperCase()`.
`ts` models the `Date.now()` value and `rand` models the already-sliced
random base-36 fragment. -/
def makeTrackingId (ts : Nat) (rand : String) : String :=
  "ORD-" ++ natToBase36 ts ++ jsToUpper rand

/-! ## Deterministic field extractors -/

/-- Position-local matcher for `/\bORD-[A-Za-z0-9]+\b/i`: a boundary before
`ORD-` (previous character absent or not a word character), the literal
`ord-` up to case, then a nonempty maximal alphanumeric run whose following
character (if any) is not a word character.  JS backtracking cannot rescue
a trailing-`_` failure by shortening the greedy run, because every shorter
run still ends at a word character. -/
def matchOrdAt (prev : Option Char) (l : List Char) : Option (List Char) :=
  let boundaryOk := match prev with | none => true | some c => !isWordChar c
  match l with
  | a :: b :: c :: d :: rest =>
    if boundaryOk && jsLowerChar a == 'o' && jsLowerChar b == 'r' &&
       jsLowerChar c == 'd' && d == '-' then
      let run := rest.takeWhile Char.isAlphanum
      let after := rest.drop run.length
      if run.isEmpty then none
      else
        match after with
        | [] => some (a :: b :: c :: d :: run)
        | e :: _ => if isWordChar e then none else some (a :: b :: c :: d :: run)
    else none
  | _ => none

/-- `extractTrackingIdFrom` from the controller: first `/\bORD-[A-Za-z0-9]+\b/i`
match, uppercased; `null` when there is no match. -/
def extractTrackingIdFrom (text : String) : Option String :=
  (scanWithPrev matchOrdAt none text.toList).map fun l => jsToUpper ⟨l⟩

/-- Position-local matcher for `/assign(?:\s+to)?\s+([A-Za-z ]+)/i`:
the literal `assign`, then optionally whitespace and `to` (tried greedily
first), then mandatory whitespace and a nonempty greedy run of letters and
spaces, which is the capture. -/
def matchAssignAt (_prev : Option Char) (l : List Char) : Option (List Char) :=
  if ciStartsWith l ('a' :: 's' :: 's' :: 'i' :: 'g' :: 'n' :: []) then
    let rest := l.drop 6
    let afterSpTo : Option (List Char) :=
      let sp := rest.takeWhile isJsSpace
      if sp.isEmpty then none
      else
        let rest2 := rest.drop sp.length
        if ciStartsWith rest2 ('t' :: 'o' :: []) then some (rest2.drop 2) else none
    let capFrom (r : List Char) : Option (List Char) :=
      let sp := r.takeWhile isJsSpace
      if sp.isEmpty then none
      else
        let r2 := r.drop sp.length
        let run := r2.takeWhile (fun c => c.isAlpha || c == ' ')
        if run.isEmpty then none else some run
    match afterSpTo with
    | some r =>
      match capFrom r with
      | some cap => some cap
      | none => capFrom rest
    | none => capFrom rest
  else none

/-- JS `String.prototype.trim`, ASCII whitespace model. -/
def jsTrim (s : String) : String :=
  ⟨(s.toList.dropWhile isJsSpace).reverse.dropWhile isJsSpace |>.reverse⟩

/-- `extractAssignee` from the controller: capture of
`/assign(?:\s+to)?\s+([A-Za-z ]+)/i`, trimmed; `null` when no match. -/
def extractAssignee (text : String) : Option String :=
  (scanWithPrev matchAssignAt none text.toList).map fun l => jsTrim ⟨l⟩

/-- `extractStatus` from the controller: on the lowercased text, the first
of `\bdelivered\b`, `\bprocessing\b`, `\bshipped\b` that tests true. -/
def extractStatus (text : String) : Option String :=
  let lower := (jsToLower text).toList
  if containsWB lower "delivered".toList then some "delivered"
  else if containsWB lower "processing".toList then some "processing"
  else if containsWB lower "shipped".toList then some "shipped"
  else none

/-! ## Pickup-time parsing (`extractPickupTime`) -/

/-- Position-local matcher for `/(\d{1,2})(?::(\d{2}))?\s*(am|pm)?/i`:
one or two digits (greedy), an optional `:MM` group requiring exactly two
digits, optional whitespace, and an optional `am`/`pm` literal.  Returns
the parsed hour, minutes, and meridiem tag. -/
def matchTimeAt (_prev : Option Char) (l : List Char) : Option (Nat × Nat × Option Bool) :=
  match l with
  | [] => none
  | c :: cs =>
    if c.isDigit then
      let (h, rest) :=
        match cs with
        | d :: cs' => if d.isDigit then ((c.toNat - 48) * 10 + (d.toNat - 48), cs') else (c.toNat - 48, cs)
        | [] => (c.toNat - 48, cs)
      let (min, rest2) :=
        match rest with
        | ':' :: d1 :: d2 :: r =>
          if d1.isDigit && d2.isDigit then ((d1.toNat - 48) * 10 + (d2.toNat - 48), r)
          else (0, rest)
        | _ => (0, rest)
      let rest3 := rest2.dropWhile isJsSpace
      let ampm : Option Bool :=
        if ciStartsWith rest3 ('a' :: 'm' :: []) then some false
        else if ciStartsWith rest3 ('p' :: 'm' :: []) then some true
        else none
      some (h, min, ampm)
    else none

/-- The parsing stage of `extractPickupTime`: hour and minute of the first
time-of-day pattern in the text, with 12-hour adjustment applied
(`pm` adds 12 to hours below 12, `12am` becomes 0). -/
def parsePickupHM (text : String) : Option (Nat × Nat) :=
  (scanWithPrev matchTimeAt none text.toList).map fun (h, min, ampm) =>
    let h' :=
      match ampm with
      | some true => if h < 12 then h + 12 else h
      | some false => if h == 12 then 0 else h
      | none => h
    (h', min)

/-- Milliseconds per day. -/
def msPerDay : Nat := 86400000

/-- `extractPickupTime` from the controller, over a millisecond clock
`now` (the `Date.now()` value, local-time model): build today's date at the
parsed hour and minute, and roll one day forward when that instant is
strictly before `now` (`d.getTime() < Date.now()`). -/
def extractPickupTime (now : Nat) (text : String) : Option Nat :=
  (parsePickupHM text).map fun (h, min) =>
    let candidate := (now / msPerDay) * msPerDay + (h * 3600000 + min * 60000)
    if candidate < now then candidate + msPerDay else candidate

/-! ## Intent classification (`parseIntent`) -/

/-- Rule 1, `/create (an )?order|place order|i want to order|new order|add order/`. -/
def ruleCreate (t : List Char) : Bool :=
  listContainsPat "create order".toList t || listContainsPat "create an order".toList t ||
  listContainsPat "place order".toList t || listContainsPat "i want to order".toList t ||
  listContainsPat "new order".toList t || listContainsPat "add order".toList t

/-- Position-local matcher for `/track (?:order )?([A-Za-z0-9\-]+)/i`:
the literal `track `, then greedily the optional literal `order `, then a
nonempty run of id characters as the capture; when the optional `order `
was taken but no id character follows, backtracking retries without it
(which then captures `order` itself). -/
def matchTrackAt (l : List Char) : Option (List Char) :=
  if ciStartsWith l "track ".toList then
    let rest := l.drop 6
    let withOrder : Option (List Char) :=
      if ciStartsWith rest "order ".toList then
        let run := (rest.drop 6).takeWhile isIdChar
        if run.isEmpty then none else some run
      else none
    match withOrder with
    | some r => some r
    | none =>
      let run := rest.takeWhile isIdChar
      if run.isEmpty then none else some run
  else none

/-- Position-local matcher for `/where is order ([A-Za-z0-9\-]+)/i`. -/
def matchWhereAt (l : List Char) : Option (List Char) :=
  if ciStartsWith l "where is order ".toList then
    let run := (l.drop 15).takeWhile isIdChar
    if run.isEmpty then none else some run
  else none

/-- Rule 2 capture: `t.match(regex1) || t.match(regex2)` on the lowercased
text, returning the captured id token of the first regex that matches. -/
def trackCapture (t : List Char) : Option (List Char) :=
  match scanWithPrev (fun _ l => matchTrackAt l) none t with
  | some r => some r
  | none => scanWithPrev (fun _ l => matchWhereAt l) none t

/-- Rule 3, `/next pickup|next delivery|next order|what's my next pickup|what is my next pickup/`. -/
def ruleNext (t : List Char) : Bool :=
  listContainsPat "next pickup".toList t || listContainsPat "next delivery".toList t ||
  listContainsPat "next order".toList t ||
  listContainsPat "what\x27s my next pickup".toList t ||
  listContainsPat "what is my next pickup".toList t

/-- Rule 4, `/list (my )?orders|show (my )?orders|recent orders/`. -/
def ruleList (t : List Char) : Bool :=
  listContainsPat "list orders".toList t || listContainsPat "list my orders".toList t ||
  listContainsPat "show orders".toList t || listContainsPat "show my orders".toList t ||
  listContainsPat "recent orders".toList t

/-- Rule 5, `/\bcancel order\b/`. -/
def ruleCancel (t : List Char) : Bool := containsWB t "cancel order".toList

/-- Rule 6, `/\bdelete order\b|\bremove order\b/`. -/
def ruleDelete (t : List Char) : Bool :=
  containsWB t "delete order".toList || containsWB t "remove order".toList

/-- Rule 7, `/add address|update address/`. -/
def ruleAddress (t : List Char) : Bool :=
  listContainsPat "add address".toList t || listContainsPat "update address".toList t

/-- Rule 8, `/\bupdate\b|\bmodify\b|\bchange\b/`. -/
def ruleUpdate (t : List Char) : Bool :=
  containsWB t "update".toList || containsWB t "modify".toList || containsWB t "change".toList

/-- Result of `parseIntent`. -/
structure ParsedIntent where
  intent : String
  trackingId : Option String := none
deriving DecidableEq

/-- `parseIntent` from the controller: the ordered first-match rule chain
over the lowercased input. -/
def parseIntent (text : String) : ParsedIntent :=
  let t := (jsToLower text).toList
  if ruleCreate t then { intent := "create_order" }
  else
    match trackCapture t with
    | some id => { intent := "track_order", trackingId := some ⟨id⟩ }
    | none =>
      if ruleNext t then { intent := "next_pickup" }
      else if ruleList t then { intent := "list_orders" }
      else if ruleCancel t then { intent := "cancel_order" }
      else if ruleDelete t then { intent := "delete_order" }
      else if ruleAddress t then { intent := "update_address" }
      else if ruleUpdate t then { intent := "update_order" }
      else { intent := "general" }

/-! ## Split/replace helpers used by the update branch -/

/-- JS `text.split(/pat/i)` for a literal pattern: the parts of `hay`
between the successive non-overlapping leftmost case-insensitive
occurrences of `pat` (given lowercase, nonempty). -/
def splitAllCIGo (pat : List Char) : Nat → List Char → List Char → List (List Char)
  | _, acc, [] => [acc.reverse]
  | 0, acc, l => [acc.reverse ++ l]
  | f + 1, acc, c :: cs =>
    if ciStartsWith (c :: cs) pat && !pat.isEmpty then
      acc.reverse :: splitAllCIGo pat f [] (cs.drop (pat.length - 1))
    else splitAllCIGo pat f (c :: acc) cs

/-- JS `s.split(/pat/i)` (literal pattern, case-insensitive).  The fuel
starts at the text length, which bounds the number of scan steps (each
step consumes at least one character), so the fuel-exhausted branch is
never taken. -/
def splitAllCI (hay pat : List Char) : List (List Char) :=
  splitAllCIGo pat hay.length [] hay

/-- The `[0]` element of a JS split on the alternation of several literal
patterns: the prefix of `hay` before the leftmost case-insensitive
occurrence of any of `pats`. -/
def takeUntilAnyCI (pats : List (List Char)) : List Char → List Char
  | [] => []
  | c :: cs =>
    if pats.any (fun p => ciStartsWith (c :: cs) p) then []
    else c :: takeUntilAnyCI pats cs

/-- The keyword alternation `/(?:remove|status|assign|pickup)/i` that
truncates the add-items text. -/
def addStopWords : List (List Char) :=
  ["remove".toList, "status".toList, "assign".toList, "pickup".toList]

/-- The keyword alternation `/(?:add|status|assign|pickup)/i` that
truncates the remove-items text. -/
def removeStopWords : List (List Char) :=
  ["add".toList, "status".toList, "assign".toList, "pickup".toList]

/-- JS `s.split(/(?:,| and )/i)`: split on every comma or ` and `
(comma tried first at each position, as in the regex alternation). -/
def splitItemsGo : Nat → List Char → List Char → List (List Char)
  | _, acc, [] => [acc.reverse]
  | 0, acc, l => [acc.reverse ++ l]
  | f + 1, acc, c :: cs =>
    if c == ',' then acc.reverse :: splitItemsGo f [] cs
    else if ciStartsWith (c :: cs) " and ".toList then
      acc.reverse :: splitItemsGo f [] (cs.drop 4)
    else splitItemsGo f (c :: acc) cs

/-- Split an item list on `,`/` and `, trim each part, and drop the empty
parts (`.map(s => s.trim()).filter(Boolean)`); the fuel argument bounds
the scan as in `splitAllCI`. -/
def splitTrimFilter (l : List Char) : List String :=
  ((splitItemsGo l.length [] l).map fun p => jsTrim ⟨p⟩).filter fun s => s != ""

/-- Word-ness of an optional character (absent counts as non-word), for
JavaScript `\b` evaluation. -/
def optWord : Option Char → Bool
  | none => false
  | some c => isWordChar c

/-- A JS word boundary between two adjacent positions. -/
def jsBoundary (a b : Option Char) : Bool := optWord a != optWord b

/-- Try `` new RegExp(`\b${rem}\b\s*,?\s*`, "ig") `` at the head of
`c :: cs` (with `prev` the character before it): a word-bounded
case-insensitive occurrence of the literal `rem` followed greedily by
whitespace, an optional comma, and more whitespace.  On success, returns
the number of characters consumed after `c` and the last consumed
character (the scan resumes after the whole match).  `rem` is a trimmed
nonempty item name; regex metacharacters inside it are modelled
literally. -/
def matchRemAt (rem : List Char) (prev : Option Char) (c : Char) (cs : List Char) :
    Option (Nat × Option Char) :=
  let l := c :: cs
  if rem.isEmpty then none
  else if jsBoundary prev (some c) && ciStartsWith l (rem.map jsLowerChar) then
    let matched := l.take rem.length
    let after := l.drop rem.length
    if jsBoundary matched.getLast? after.head? then
      let sp1 := after.takeWhile isJsSpace
      let r1 := after.drop sp1.length
      let (commaLen, r2) := match r1 with | ',' :: t => (1, t) | _ => (0, r1)
      let sp2 := r2.takeWhile isJsSpace
      let sepLen := sp1.length + commaLen + sp2.length
      let lastC :=
        if sepLen == 0 then matched.getLast?
        else (l.take (rem.length + sepLen)).getLast?
      some (rem.length + sepLen - 1, lastC)
    else none
  else none

/-- Global replacement of `` new RegExp(`\b${rem}\b\s*,?\s*`, "ig") `` by
the empty string, scanning left to right. -/
def replaceRemGo (rem : List Char) : Nat → Option Char → List Char → List Char
  | _, _, [] => []
  | 0, _, l => l
  | f + 1, prev, c :: cs =>
    match matchRemAt rem prev c cs with
    | some (extra, lastC) => replaceRemGo rem f lastC (cs.drop extra)
    | none => c :: replaceRemGo rem f (some c) cs

/-- Whole-string global replacement of the word-bounded item pattern
(fuel bounds the scan as in `splitAllCI`). -/
def replaceRem (rem : List Char) (l : List Char) : List Char :=
  replaceRemGo rem l.length none l

/-- One pass of `newItem.replace(/,\s*,/g, ", ")`. -/
def cleanCommasGo : Nat → List Char → List Char
  | _, [] => []
  | 0, l => l
  | f + 1, c :: cs =>
    if c == ',' then
      let sp := cs.takeWhile isJsSpace
      match cs.drop sp.length with
      | ',' :: _ => ',' :: ' ' :: cleanCommasGo f (cs.drop (sp.length + 1))
      | _ => ',' :: cleanCommasGo f cs
    else c :: cleanCommasGo f cs

/-- One pass of `newItem.replace(/,\s*,/g, ", ")` over the whole string
(fuel bounds the scan as in `splitAllCI`). -/
def cleanCommas (l : List Char) : List Char := cleanCommasGo l.length l

/-- `newItem.replace(/^,\s*|\s*,\s*$/g, "")`: strip one leading comma with
its trailing whitespace, and one trailing comma with surrounding
whitespace. -/
def stripEdgeCommas (l : List Char) : List Char :=
  let l1 := match l with | ',' :: t => t.dropWhile isJsSpace | _ => l
  let r := l1.reverse
  let r1 := r.dropWhile isJsSpace
  let l2 := match r1 with | ',' :: t => (t.dropWhile isJsSpace).reverse | _ => l1
  l2

/-! ## JavaScript truthiness helpers -/

/-- JS `a || b` for numbers modelled as integers (`0` is falsy). -/
def jsOrInt (a b : Int) : Int := if a == 0 then b else a

/-- JS `a || b` for strings (`""` is falsy). -/
def jsOrStr (a b : String) : String := if a == "" then b else a

/-- JS `a || null` for a nullable string (`""` collapses to `null`). -/
def jsStrOrNull (a : Option String) : Option String :=
  match a with
  | some s => if s == "" then none else some s
  | none => none

/-- JS `a || d` for a nullable string with a string default. -/
def jsOrOptStr (a : Option String) (d : String) : String :=
  match a with
  | some s => if s == "" then d else s
  | none => d

/-! ## The structured-extraction collaborator (`extractOrderFieldsWithLLM`) -/

/-- JSON fields of the extraction model's reply, after JSON parsing, as the
controller reads them (`parsed.<key>`).  Numbers are modelled as integers
and `pickupTime` as an already-interpreted millisecond timestamp
(`new Date(string)` is an external platform call). -/
structure ParsedFields where
  customerName : Option String := none
  address : Option String := none
  item : Option String := none
  qty : Option Int := none
  pickupTime : Option Nat := none
  assignedTo : Option String := none
  status : Option String := none
  trackingId : Option String := none
  amount : Option Int := none
  expenses : Option Int := none
deriving DecidableEq

/-- Outcome of the structured-extraction collaborator for one request:
no backend configured (`groq === null`), the chat call threw, the reply's
`{...}` block failed `JSON.parse` (both end in the same `catch`), or a
successfully parsed JSON object. -/
inductive LLMOutcome where
  | noBackend
  | callThrows
  | unparsable
  | parsed (p : ParsedFields)
deriving DecidableEq

/-- The record `extractOrderFieldsWithLLM` resolves to. -/
structure Extracted where
  customerName : Option String
  address : Option String
  item : String
  qty : Int
  pickupTime : Option Nat
  assignedTo : Option String
  status : String
  trackingId : Option String
  amount : Int
  expenses : Int
deriving DecidableEq

/-- The deterministic fallback record (returned both when no backend is
configured and from the `catch` handler): `item` is the raw text,
`qty = 1`, `amount = 200`, `expenses = 50`, everything else null /
`"created"`. -/
def fallbackExtracted (text : String) : Extracted :=
  { customerName := none, address := none, item := text, qty := 1,
    pickupTime := none, assignedTo := none, status := "created",
    trackingId := none, amount := 200, expenses := 50 }

/-- `extractOrderFieldsWithLLM` from the controller: the fallback record on
any failure, otherwise the parsed fields coerced with JS `||` defaulting
(`item` defaults to the raw text, `qty` to 1, `status` to `"created"`,
`amount` to 200, `expenses` to 50). -/
def extractOrderFieldsWithLLM (llm : LLMOutcome) (text : String) : Extracted :=
  match llm with
  | .noBackend => fallbackExtracted text
  | .callThrows => fallbackExtracted text
  | .unparsable => fallbackExtracted text
  | .parsed p =>
    { customerName := jsStrOrNull p.customerName,
      address := jsStrOrNull p.address,
      item := jsOrOptStr p.item text,
      qty := match p.qty with | some q => if q == 0 then 1 else q | none => 1,
      pickupTime := p.pickupTime,
      assignedTo := jsStrOrNull p.assignedTo,
      status := jsOrOptStr p.status "created",
      trackingId := jsStrOrNull p.trackingId,
      amount := match p.amount with | some a => if a == 0 then 200 else a | none => 200,
      expenses := match p.expenses with | some e => if e == 0 then 50 else e | none => 50 }

/-! ## The order store

Modelled from the spec: `models/Order.ts` is not among the sources, so the
entity fields follow §3 of the spec and the store collaborator follows §6
(create, exact find-by-trackingId, find-with-filter-sort-limit,
first-match update, delete), with `createdAt`/`updatedAt` system-managed
(modelled by the creation clock). -/

/-- A persisted order (spec §3). -/
structure Order where
  customerName : Option String := none
  address : Option String := none
  item : String := ""
  qty : Int := 1
  status : String := "created"
  pickupTime : Option Nat := none
  trackingId : String := ""
  assignedTo : Option String := none
  amount : Int := 200
  expenses : Int := 50
  createdBy : String := ""
  createdVia : String := ""
  createdAt : Nat := 0
deriving DecidableEq

/-- `Order.findOne({ trackingId })`: first order whose `trackingId` equals
the key exactly (Mongo string equality is case sensitive). -/
def findOne (store : List Order) (tid : String) : Option Order :=
  store.find? fun o => o.trackingId == tid

/-- `Order.findOneAndUpdate({ trackingId }, …, { new: true })`: update the
first matching order with `f` and return it, or return `none` leaving the
store unchanged. -/
def findOneAndUpdate (store : List Order) (tid : String) (f : Order → Order) :
    Option Order × List Order :=
  match store with
  | [] => (none, [])
  | o :: rest =>
    if o.trackingId == tid then (some (f o), f o :: rest)
    else
      let r := findOneAndUpdate rest tid f
      (r.1, o :: r.2)

/-- `Order.findByIdAndDelete` of the first order found under `tid`. -/
def deleteFirst (store : List Order) (tid : String) : List Order :=
  match store with
  | [] => []
  | o :: rest => if o.trackingId == tid then rest else o :: deleteFirst rest tid

/-- Stable insertion for sorting the store under a boolean `le`. -/
def insertByLE (le : Order → Order → Bool) (o : Order) : List Order → List Order
  | [] => [o]
  | x :: xs => if le o x then o :: x :: xs else x :: insertByLE le o xs

/-- Stable insertion sort of the store under a boolean `le` (the store
collaborator's sort; ties are returned in an unspecified but fixed
order). -/
def sortByLE (le : Order → Order → Bool) : List Order → List Order
  | [] => []
  | x :: xs => insertByLE le x (sortByLE le xs)

/-- The `{ createdAt: -1 }` sort order (newest first). -/
def createdDescLE (a b : Order) : Bool := b.createdAt ≤ a.createdAt

/-- The `{ pickupTime: 1, createdAt: 1 }` sort order: ascending pickup
time with absent (`null`) pickup times first, ties broken by ascending
creation time. -/
def pickupAscLE (a b : Order) : Bool :=
  match a.pickupTime, b.pickupTime with
  | none, none => a.createdAt ≤ b.createdAt
  | none, some _ => true
  | some _, none => false
  | some x, some y => if x == y then a.createdAt ≤ b.createdAt else x < y

/-! ## Request environment and response shape -/

/-- Outcome of the conversational (chat fallback) collaborator. -/
inductive ChatOutcome where
  | noBackend
  | callThrows
  | reply (content : String)
deriving DecidableEq

/-- Per-request environment: the two model collaborators' outcomes, the
`Date.now()` values observed by `makeTrackingId` (`ts`) and by
`extractPickupTime` (`now`), and the sliced `Math.random()` base-36
fragment. -/
structure Env where
  llm : LLMOutcome := .noBackend
  chat : ChatOutcome := .noBackend
  ts : Nat := 0
  now : Nat := 0
  rand : String := ""
deriving DecidableEq

/-- The `order` field of a JSON response: absent/null, a full order
document, or the partial `{ trackingId }` object of the delete branch. -/
inductive RespOrder where
  | null
  | full (o : Order)
  | idOnly (trackingId : String)
deriving DecidableEq

/-- The JSON response of `aiReply` (the `res.json(...)` payload, plus an
error flag for the HTTP-500 catch path). -/
structure Response where
  reply : String
  action : String
  order : RespOrder := .null
  orders : List Order := []
  trackingId : Option String := none
  isError : Bool := false
deriving DecidableEq

/-- The `trackingId` of the order attached to a response, when a full
order document is attached. -/
def Response.orderTrackingId (r : Response) : Option String :=
  match r.order with
  | .full o => some o.trackingId
  | _ => none

/-- The `qty` of the order attached to a response. -/
def Response.orderQty (r : Response) : Option Int :=
  match r.order with
  | .full o => some o.qty
  | _ => none

/-- The `item` of the order attached to a response. -/
def Response.orderItem (r : Response) : Option String :=
  match r.order with
  | .full o => some o.item
  | _ => none

/-- The `status` of the order attached to a response. -/
def Response.orderStatus (r : Response) : Option String :=
  match r.order with
  | .full o => some o.status
  | _ => none

/-- The `amount` of the order attached to a response. -/
def Response.orderAmount (r : Response) : Option Int :=
  match r.order with
  | .full o => some o.amount
  | _ => none

/-- The `expenses` of the order attached to a response. -/
def Response.orderExpenses (r : Response) : Option Int :=
  match r.order with
  | .full o => some o.expenses
  | _ => none

/-! ## Remaining branch-local matchers -/

/-- Position-local matcher for `/cancel order ([A-Za-z0-9\-]+)/i`. -/
def matchCancelAt (l : List Char) : Option (List Char) :=
  if ciStartsWith l "cancel order ".toList then
    let run := (l.drop 13).takeWhile isIdChar
    if run.isEmpty then none else some run
  else none

/-- The cancel branch's id capture: `text.match(/cancel order ([A-Za-z0-9\-]+)/i)`. -/
def cancelCapture (text : String) : Option String :=
  (scanWithPrev (fun _ l => matchCancelAt l) none text.toList).map fun l => ⟨l⟩

/-- Position-local matcher for `/ORD-[A-Za-z0-9]+/i` (no word boundaries),
used by the update-address branch; returns the whole match. -/
def matchOrdPlainAt (l : List Char) : Option (List Char) :=
  if ciStartsWith l ('o' :: 'r' :: 'd' :: '-' :: []) then
    let run := (l.drop 4).takeWhile Char.isAlphanum
    if run.isEmpty then none else some (l.take (4 + run.length))
  else none

/-- `/pick\s?up/i.test(text)`. -/
def hasPickupToken (text : String) : Bool :=
  let check (l : List Char) : Option Unit :=
    if ciStartsWith l "pickup".toList then some ()
    else
      match l with
      | c1 :: c2 :: c3 :: c4 :: c5 :: rest =>
        if ciStartsWith (c1 :: c2 :: c3 :: c4 :: []) "pick".toList && isJsSpace c5 &&
           ciStartsWith rest "up".toList
        then some () else none
      | _ => none
  (scanWithPrev (fun _ l => check l) none text.toList).isSome

/-- JS `text.split(lit)` for a case-sensitive literal (used with the
uppercased tracking id in the update-address branch). -/
def splitAllLitGo (pat : List Char) : Nat → List Char → List Char → List (List Char)
  | _, acc, [] => [acc.reverse]
  | 0, acc, l => [acc.reverse ++ l]
  | f + 1, acc, c :: cs =>
    if listStartsWith (c :: cs) pat && !pat.isEmpty then
      acc.reverse :: splitAllLitGo pat f [] (cs.drop (pat.length - 1))
    else splitAllLitGo pat f (c :: acc) cs

/-- `text.split(lit)`, case sensitive (fuel as in `splitAllCI`). -/
def splitAllLit (hay pat : List Char) : List (List Char) :=
  splitAllLitGo pat hay.length [] hay

/-! ## The pending field updates of the update branch -/

/-- The `updates` object accumulated by the update branch. -/
structure OrderUpdates where
  status : Option String := none
  pickupTime : Option Nat := none
  assignedTo : Option String := none
  item : Option String := none
deriving DecidableEq

/-- `Object.keys(updates).length === 0`. -/
def OrderUpdates.isEmpty (u : OrderUpdates) : Bool :=
  u.status.isNone && u.pickupTime.isNone && u.assignedTo.isNone && u.item.isNone

/-- Apply the accumulated updates to an order document. -/
def applyUpdates (o : Order) (u : OrderUpdates) : Order :=
  { o with
    status := u.status.getD o.status,
    pickupTime := match u.pickupTime with | some dt => some dt | none => o.pickupTime,
    assignedTo := match u.assignedTo with | some a => some a | none => o.assignedTo,
    item := u.item.getD o.item }

/-- The `updates` object computed by the update branch for order `o` and
input `text` (status keyword, pickup time guarded by a pickup token,
assignee, added items, then removed items, in source order; a remove
recomputes from the original `order.item`, overwriting any add). -/
def computeUpdates (now : Nat) (o : Order) (text : String) : OrderUpdates :=
  let tl := text.toList
  let u0 : OrderUpdates := {}
  let u1 :=
    match extractStatus text with
    | some s => { u0 with status := some s }
    | none => u0
  let u2 :=
    if hasPickupToken text then
      match extractPickupTime now text with
      | some dt => { u1 with pickupTime := some dt }
      | none => u1
    else u1
  let u3 :=
    match extractAssignee text with
    | some a => { u2 with assignedTo := some a }
    | none => u2
  let u4 :=
    if containsWBci tl "add".toList then
      let part := ((splitAllCI tl "add".toList).drop 1).headD []
      let addText := takeUntilAnyCI addStopWords part
      let items := splitTrimFilter addText
      if items.isEmpty then u3
      else
        let joined := String.intercalate ", " items
        let pieces := ([o.item, joined].filter fun s => s != "")
        { u3 with item := some (String.intercalate ", " pieces) }
    else u3
  let u5 :=
    if containsWBci tl "remove".toList && o.item != "" then
      let part := ((splitAllCI tl "remove".toList).drop 1).headD []
      let removeText := takeUntilAnyCI removeStopWords part
      let toRemove := splitTrimFilter removeText
      if toRemove.isEmpty then u4
      else
        let newItem := toRemove.foldl (fun acc rem => replaceRem rem.toList acc) o.item.toList
        { u4 with item := some (jsTrim ⟨stripEdgeCommas (cleanCommas newItem)⟩) }
    else u4
  u5

/-! ## The main controller (`aiReply`) -/

/-- `aiReply` from the controller: classify the text, run the matching
branch against the store, and return the JSON response together with the
updated store.  `userId` only feeds the elided conversation history and
the creation metadata. -/
def aiReply (env : Env) (text userId : String) (store : List Order) :
    Response × List Order :=
  let parsed := parseIntent text
  if parsed.intent == "create_order" then
    let extracted := extractOrderFieldsWithLLM env.llm text
    let trackingId := makeTrackingId env.ts env.rand
    let order : Order :=
      { customerName := jsStrOrNull extracted.customerName,
        address := jsStrOrNull extracted.address,
        item := extracted.item,
        qty := jsOrInt extracted.qty 1,
        status := "created",
        pickupTime := extracted.pickupTime,
        trackingId := trackingId,
        assignedTo := jsStrOrNull extracted.assignedTo,
        amount := jsOrInt extracted.amount 200,
        expenses := jsOrInt extracted.expenses 50,
        createdBy := userId,
        createdVia := "voice",
        createdAt := env.ts }
    ({ reply := "Order created. Tracking ID " ++ trackingId ++ ".",
       action := "created_order", order := .full order }, store ++ [order])
  else if parsed.intent == "track_order" && (parsed.trackingId.getD "" != "") then
    let ptid := parsed.trackingId.getD ""
    match findOne store ptid with
    | none =>
      ({ reply := "I couldn\x27t find order " ++ ptid ++ ".",
         action := "order_not_found", trackingId := some ptid }, store)
    | some o =>
      ({ reply := "Here are the details for " ++ o.trackingId ++ ": \n- Customer: " ++
           jsOrOptStr o.customerName "N/A" ++ " \n- Items: " ++ jsOrStr o.item "N/A" ++
           " \n- Address: " ++ jsOrOptStr o.address "N/A" ++ " \n- Status: " ++ o.status,
         action := "track_order", order := .full o }, store)
  else if parsed.intent == "next_pickup" then
    let candidates := store.filter fun o =>
      o.status == "created" || o.status == "assigned" || o.status == "pending"
    match (sortByLE pickupAscLE candidates).head? with
    | none => ({ reply := "You have no upcoming pickups.", action := "no_pickups" }, store)
    | some next =>
      ({ reply := "Next pickup: " ++ next.item ++ " (" ++ toString next.qty ++ ") — " ++
           jsOrOptStr next.address "address not set" ++ ". Tracking ID " ++
           next.trackingId ++ ".",
         action := "next_pickup", order := .full next }, store)
  else if parsed.intent == "list_orders" then
    let orders := (sortByLE createdDescLE store).take 10
    let reply :=
      if orders.length != 0 then
        "Showing your " ++ toString orders.length ++ " most recent orders."
      else "No orders found."
    ({ reply := reply, action := "list_orders", orders := orders }, store)
  else if parsed.intent == "cancel_order" then
    match cancelCapture text with
    | some mid =>
      let r := findOneAndUpdate store (jsToUpper mid) fun o => { o with status := "cancelled" }
      let reply :=
        match r.1 with
        | some o => "Order " ++ o.trackingId ++ " cancelled."
        | none => "Couldn\x27t find order " ++ mid ++ "."
      ({ reply := reply, action := "cancel_order",
         order := match r.1 with | some o => .full o | none => .null }, r.2)
    | none =>
      ({ reply := "Please provide the order ID to cancel (e.g., \x27Cancel order ORD-ABC123\x27).",
         action := "ask_for_order_id" }, store)
  else if parsed.intent == "update_address" then
    match scanWithPrev (fun _ l => matchOrdPlainAt l) none text.toList with
    | none =>
      ({ reply := "Please provide the order ID to update the address (e.g., \x27Update address of order ORD-ABC123 Pune\x27).",
         action := "ask_for_order_id" }, store)
    | some m =>
      let trackingId := jsToUpper ⟨m⟩
      let seg := ((splitAllLit text.toList trackingId.toList).drop 1).head?
      let a0 := seg.map fun l => jsTrim ⟨l⟩
      let a1 :=
        match a0 with
        | some s =>
          some (if listStartsWith (jsToLower s).toList "to ".toList then jsTrim (⟨s.toList.drop 3⟩) else s)
        | none => none
      let a2 :=
        match a1 with
        | some s =>
          some (if listStartsWith (jsToLower s).toList "is ".toList then jsTrim (⟨s.toList.drop 3⟩) else s)
        | none => none
      let a3 :=
        match a2 with
        | some s =>
          some (if listStartsWith s.toList (':' :: []) then jsTrim (⟨s.toList.drop 1⟩) else s)
        | none => none
      match a3 with
      | none =>
        ({ reply := "Please provide the new address after the order ID (e.g., \x27Update address of order " ++ trackingId ++ " Pune, Maharashtra\x27).",
           action := "ask_for_address", trackingId := some trackingId }, store)
      | some addr =>
        if addr == "" then
          ({ reply := "Please provide the new address after the order ID (e.g., \x27Update address of order " ++ trackingId ++ " Pune, Maharashtra\x27).",
             action := "ask_for_address", trackingId := some trackingId }, store)
        else
          let r := findOneAndUpdate store trackingId fun o => { o with address := some addr }
          match r.1 with
          | none =>
            ({ reply := "Sorry, I couldn\x27t find order " ++ trackingId ++ ".",
               action := "order_not_found", trackingId := some trackingId }, store)
          | some upd =>
            ({ reply := "The address for order " ++ trackingId ++ " has been updated to: " ++
                 jsOrOptStr upd.address "",
               action := "update_address", order := .full upd }, r.2)
  else if parsed.intent == "update_order" then
    match extractTrackingIdFrom text with
    | none =>
      ({ reply := "Please provide a valid order ID (e.g., ORD-ABC123) to update.",
         action := "ask_for_order_id" }, store)
    | some trackingId =>
      match findOne store trackingId with
      | none =>
        ({ reply := "Sorry, I couldn\x27t find order " ++ trackingId ++ ".",
           action := "order_not_found", trackingId := some trackingId }, store)
      | some o =>
        let updates := computeUpdates env.now o text
        if updates.isEmpty then
          ({ reply := "What would you like to update? (status, pickup time, assignee, items)",
             action := "update_order", order := .full o }, store)
        else
          let upd := applyUpdates o updates
          let r := findOneAndUpdate store trackingId fun _ => upd
          ({ reply := "Order " ++ trackingId ++ " updated.\n- Status: " ++ upd.status ++
               "\n- Pickup time: " ++
               (match upd.pickupTime with | some dt => toString dt | none => "not set") ++
               "\n- Assigned to: " ++ upd.assignedTo.getD "not set" ++
               "\n- Items: " ++ upd.item,
             action := "update_order", order := .full upd }, r.2)
  else if parsed.intent == "delete_order" then
    match extractTrackingIdFrom text with
    | none =>
      ({ reply := "Please provide the order ID to delete (e.g., \x27delete order ORD-ABC123\x27).",
         action := "ask_for_order_id" }, store)
    | some trackingId =>
      match findOne store trackingId with
      | none =>
        ({ reply := "I couldn\x27t find order " ++ trackingId ++ ".",
           action := "order_not_found", trackingId := some trackingId }, store)
      | some _ =>
        ({ reply := "Order " ++ trackingId ++ " has been deleted.",
           action := "delete_order", order := .idOnly trackingId }, deleteFirst store trackingId)
  else
    match env.chat with
    | .reply content =>
      ({ reply := jsOrStr content "Sorry, I didn\x27t get that.", action := "llm_reply" }, store)
    | .noBackend =>
      ({ reply := "Sorry, I couldn\x27t process that right now.", action := "fallback" }, store)
    | .callThrows =>
      ({ reply := "Internal error", action := "error", isError := true }, store)

/-! ## Spec-side predicates and the declarative rule table -/

/-- The spec's `^ORD-[A-Z0-9]+$` tracking-id format. -/
def matchesOrdUpper (s : String) : Bool :=
  listStartsWith s.toList "ORD-".toList &&
  (let r := s.toList.drop 4
   !r.isEmpty && r.all fun c => c.isUpper || c.isDigit)

/-- The case-tolerant format `^ORD-[A-Za-z0-9]+$` actually produced by
`makeTrackingId` (the base-36 timestamp part may contain lowercase
letters). -/
def matchesOrdAnyCase (s : String) : Bool :=
  listStartsWith s.toList "ORD-".toList &&
  (let r := s.toList.drop 4
   !r.isEmpty && r.all Char.isAlphanum)

/-- A base-36 output character of JS `Number.prototype.toString(36)`:
a decimal digit or a lowercase letter. -/
def isBase36Char (c : Char) : Bool := c.isDigit || c.isLower

/-- Modelled from the spec (§4.1): the intent rules as a declarative
**ordered** table of pattern predicates, evaluated against the lowercased
input, first match wins. -/
def specRuleTable : List ((List Char → Bool) × String) :=
  [(ruleCreate, "create_order"),
   (fun t => (trackCapture t).isSome, "track_order"),
   (ruleNext, "next_pickup"),
   (ruleList, "list_orders"),
   (ruleCancel, "cancel_order"),
   (ruleDelete, "delete_order"),
   (ruleAddress, "update_address"),
   (ruleUpdate, "update_order")]

/-- Modelled from the spec (§4.1): the intent of the first rule of the
ordered table that matches the lowercased input, `general` if none do. -/
def firstMatchIntent (text : String) : String :=
  let t := (jsToLower text).toList
  match specRuleTable.find? fun pr => pr.1 t with
  | some pr => pr.2
  | none => "general"

/-! ## Concrete scenario fixtures -/

/-- Concrete request environment for the concrete scenarios: no model
backends, creation clock `46655` (base-36 rendering `zzz`, which contains
lowercase letters, like every contemporary `Date.now()` value), random
fragment `abcdef`. -/
def cexEnv : Env :=
  { llm := .noBackend, chat := .noBackend, ts := 46655, now := 0, rand := "abcdef" }

/-- The store after creating one order through `aiReply` in `cexEnv`
(its trackingId is `ORD-zzzABCDEF`). -/
def cexStore : List Order := (aiReply cexEnv "create order bread" "demo-user" []).2

/-! ## Character arithmetic toolkit -/

theorem char_isDigit_iff (c : Char) : c.isDigit = true ↔ 48 ≤ c.toNat ∧ c.toNat ≤ 57 := by
  simp [Char.isDigit, Char.toNat, UInt32.le_def, BitVec.le_def, UInt32.toNat]

theorem char_isLower_iff (c : Char) : c.isLower = true ↔ 97 ≤ c.toNat ∧ c.toNat ≤ 122 := by
  simp [Char.isLower, Char.toNat, UInt32.le_def, BitVec.le_def, UInt32.toNat]

theorem char_isUpper_iff (c : Char) : c.isUpper = true ↔ 65 ≤ c.toNat ∧ c.toNat ≤ 90 := by
  simp [Char.isUpper, Char.toNat, UInt32.le_def, BitVec.le_def, UInt32.toNat]

theorem char_isAlphanum_iff (c : Char) : c.isAlphanum = true ↔
    (48 ≤ c.toNat ∧ c.toNat ≤ 57) ∨ (65 ≤ c.toNat ∧ c.toNat ≤ 90) ∨
    (97 ≤ c.toNat ∧ c.toNat ≤ 122) := by
  simp [Char.isAlphanum, Char.isAlpha, char_isDigit_iff, char_isLower_iff, char_isUpper_iff]
  tauto

theorem char_eq_of_toNat_eq {c d : Char} (h : c.toNat = d.toNat) : c = d :=
  Char.ext (UInt32.ext h)

theorem char_toNat_ofNat (n : Nat) (h : n < 55296) : (Char.ofNat n).toNat = n := by
  have hv : Nat.isValidChar n := Or.inl h
  simp [Char.ofNat, hv, Char.ofNatAux, Char.toNat, UInt32.toNat, UInt32.ofNat']

theorem jsLowerChar_toNat (c : Char) :
    (jsLowerChar c).toNat = if 65 ≤ c.toNat ∧ c.toNat ≤ 90 then c.toNat + 32 else c.toNat := by
  unfold jsLowerChar
  split
  · next h => exact char_toNat_ofNat _ (by omega)
  · rfl

theorem jsUpperChar_toNat (c : Char) :
    (jsUpperChar c).toNat = if 97 ≤ c.toNat ∧ c.toNat ≤ 122 then c.toNat - 32 else c.toNat := by
  unfold jsUpperChar
  split
  · next h => exact char_toNat_ofNat _ (by omega)
  · rfl

theorem jsUpperChar_upperAlnum {c : Char} (h : c.isAlphanum = true) :
    ((jsUpperChar c).isUpper || (jsUpperChar c).isDigit) = true := by
  rw [char_isAlphanum_iff] at h
  simp only [Bool.or_eq_true, char_isUpper_iff, char_isDigit_iff, jsUpperChar_toNat]
  split <;> omega

theorem jsUpperChar_alphanum {c : Char} (h : c.isAlphanum = true) :
    (jsUpperChar c).isAlphanum = true := by
  rw [char_isAlphanum_iff] at h
  rw [char_isAlphanum_iff, jsUpperChar_toNat]
  split <;> omega

theorem jsUpperChar_fix {c : Char} (h : ¬(97 ≤ c.toNat ∧ c.toNat ≤ 122)) :
    jsUpperChar c = c := by
  unfold jsUpperChar
  simp [h]

theorem jsUpperChar_idem (c : Char) : jsUpperChar (jsUpperChar c) = jsUpperChar c := by
  apply jsUpperChar_fix
  rw [jsUpperChar_toNat]
  split <;> omega

theorem jsUpperChar_of_jsLower {a t : Char} (ht : 97 ≤ t.toNat ∧ t.toNat ≤ 122)
    (h : jsLowerChar a = t) : (jsUpperChar a).toNat = t.toNat - 32 := by
  have ha := congrArg Char.toNat h
  rw [jsLowerChar_toNat] at ha
  rw [jsUpperChar_toNat]
  split at ha <;> split <;> omega

theorem jsLowerChar_eq_nonletter {a t : Char} (ht : ¬(97 ≤ t.toNat ∧ t.toNat ≤ 122))
    (h : jsLowerChar a = t) : a = t := by
  have ha := congrArg Char.toNat h
  rw [jsLowerChar_toNat] at ha
  apply char_eq_of_toNat_eq
  split at ha <;> omega

theorem jsUpperChar_ne_of_lower {c : Char} (h : c.isLower = true) : jsUpperChar c ≠ c := by
  rw [char_isLower_iff] at h
  intro he
  have := congrArg Char.toNat he
  rw [jsUpperChar_toNat] at this
  split at this <;> omega

/-! ## Base-36 digit facts -/

theorem base36Digit_isBase36 {n : Nat} (h : n < 36) : isBase36Char (base36Digit n) = true := by
  unfold base36Digit isBase36Char
  simp only [Bool.or_eq_true, char_isDigit_iff, char_isLower_iff]
  split
  · left; rw [char_toNat_ofNat _ (by omega)]; omega
  · right; rw [char_toNat_ofNat _ (by omega)]; omega

theorem natToBase36Go_props : ∀ (fuel n : Nat), n < fuel →
    natToBase36Go fuel n ≠ [] ∧ ∀ c ∈ natToBase36Go fuel n, isBase36Char c = true := by
  intro fuel
  induction fuel with
  | zero => intro n h; omega
  | succ f ih =>
    intro n h
    rw [natToBase36Go]
    split
    · next hlt =>
      refine ⟨by simp, ?_⟩
      intro c hc
      simp only [List.mem_singleton] at hc
      subst hc
      exact base36Digit_isBase36 hlt
    · next hge =>
      have hdiv : n / 36 < f := by
        have h1 : n / 36 < n := Nat.div_lt_self (by omega) (by omega)
        omega
      refine ⟨by simp [(ih _ hdiv).1], ?_⟩
      intro c hc
      rcases List.mem_append.mp hc with hm | hm
      · exact (ih _ hdiv).2 c hm
      · simp only [List.mem_singleton] at hm
        subst hm
        exact base36Digit_isBase36 (Nat.mod_lt _ (by omega))

theorem natToBase36List_props (n : Nat) :
    natToBase36List n ≠ [] ∧ ∀ c ∈ natToBase36List n, isBase36Char c = true :=
  natToBase36Go_props (n + 1) n (by omega)

theorem isBase36Char_alphanum {c : Char} (h : isBase36Char c = true) : c.isAlphanum = true := by
  unfold isBase36Char at h
  rcases Bool.or_eq_true_iff.mp h with h | h
  · rw [char_isDigit_iff] at h
    rw [char_isAlphanum_iff]
    omega
  · rw [char_isLower_iff] at h
    rw [char_isAlphanum_iff]
    omega

/-! ## List and string scanning facts -/

theorem takeWhile_all {p : Char → Bool} : ∀ {l : List Char}, (∀ c ∈ l, p c = true) →
    l.takeWhile p = l
  | [], _ => rfl
  | c :: cs, h => by
    have hc : p c = true := h c (by simp)
    simp only [List.takeWhile_cons, hc]
    exact congrArg (c :: ·) (takeWhile_all fun x hx => h x (by simp [hx]))

theorem listStartsWith_extend {p : List Char} : ∀ {a : List Char} (b : List Char),
    listStartsWith a p = true → listStartsWith (a ++ b) p = true := by
  induction p with
  | nil => intro a b _; cases a ++ b <;> rfl
  | cons x xs ih =>
    intro a b h
    cases a with
    | nil => simp [listStartsWith] at h
    | cons c cs =>
      rw [List.cons_append]
      rw [listStartsWith] at h ⊢
      rcases Bool.and_eq_true_iff.mp h with ⟨h1, h2⟩
      exact Bool.and_eq_true_iff.mpr ⟨h1, ih b h2⟩

theorem listStartsWith_refl : ∀ (p : List Char), listStartsWith p p = true
  | [] => rfl
  | c :: cs => by
    rw [listStartsWith]
    exact Bool.and_eq_true_iff.mpr ⟨by simp, listStartsWith_refl cs⟩

theorem listStartsWith_append (p r : List Char) : listStartsWith (p ++ r) p = true :=
  listStartsWith_extend r (listStartsWith_refl p)

theorem listContainsPat_of_startsWith {pat hay : List Char}
    (h : listStartsWith hay pat = true) : listContainsPat pat hay = true := by
  cases hay with
  | nil =>
    rw [listContainsPat]
    exact h
  | cons c cs =>
    rw [listContainsPat]
    exact Bool.or_eq_true_iff.mpr (Or.inl h)

theorem ciStartsWith_of_lower : ∀ {p : List Char} (r : List Char),
    (∀ c ∈ p, jsLowerChar c = c) → ciStartsWith (p ++ r) p = true
  | [], r, _ => by show ciStartsWith r [] = true; cases r <;> rfl
  | c :: cs, r, h => by
    rw [List.cons_append, ciStartsWith]
    refine Bool.and_eq_true_iff.mpr ⟨?_, ciStartsWith_of_lower r fun x hx => h x (by simp [hx])⟩
    simp [h c (by simp)]

theorem string_toList_mk (l : List Char) : (String.mk l).toList = l := rfl

theorem string_toList_append (s t : String) : (s ++ t).toList = s.toList ++ t.toList := by
  cases s
  cases t
  rfl

theorem jsToUpper_toList (s : String) : (jsToUpper s).toList = s.toList.map jsUpperChar := rfl

theorem jsToLower_toList (s : String) : (jsToLower s).toList = s.toList.map jsLowerChar := rfl

theorem string_mk_ne_of_toList_ne {l : List Char} {s : String} (h : l ≠ s.toList) :
    (⟨l⟩ : String) ≠ s := by
  intro he
  exact h (congrArg String.toList he)

/-! ## Store operation facts -/

theorem findOneAndUpdate_not_found {tid : String} {f : Order → Order} :
    ∀ {store : List Order}, (∀ o ∈ store, o.trackingId ≠ tid) →
    findOneAndUpdate store tid f = (none, store)
  | [], _ => rfl
  | o :: rest, h => by
    rw [findOneAndUpdate]
    have ho : (o.trackingId == tid) = false := by
      simp [h o (by simp)]
    simp only [ho, Bool.false_eq_true, if_false]
    rw [findOneAndUpdate_not_found fun x hx => h x (by simp [hx])]

theorem findOne_eq_none {tid : String} {store : List Order}
    (h : ∀ o ∈ store, o.trackingId ≠ tid) : findOne store tid = none := by
  rw [findOne, List.find?_eq_none]
  intro o ho
  simp [h o ho]

theorem findOneAndUpdate_found {tid : String} {f : Order → Order} :
    ∀ {store : List Order} {o : Order}, findOne store tid = some o →
    (f o).trackingId = tid →
    (findOneAndUpdate store tid f).1 = some (f o) ∧
    findOne (findOneAndUpdate store tid f).2 tid = some (f o) := by
  intro store
  induction store with
  | nil => intro o h _; simp [findOne, List.find?] at h
  | cons x rest ih =>
    intro o h hf
    rw [findOne, List.find?] at h
    rw [findOneAndUpdate]
    cases hx : x.trackingId == tid with
    | true =>
      rw [hx] at h
      simp only [Option.some.injEq] at h
      subst h
      refine ⟨?_, ?_⟩ <;> simp [findOne, List.find?, hf]
    | false =>
      rw [hx] at h
      have := ih h hf
      simp only [Bool.false_eq_true, if_false]
      refine ⟨this.1, ?_⟩
      rw [findOne, List.find?]
      simp only [hx]
      exact this.2

/-! ## Sorting facts -/

theorem insertByLE_mem {le : Order → Order → Bool} {o : Order} :
    ∀ {l : List Order} {y : Order}, y ∈ insertByLE le o l → y = o ∨ y ∈ l := by
  intro l
  induction l with
  | nil => intro y hy; simp [insertByLE] at hy; exact Or.inl hy
  | cons x xs ih =>
    intro y hy
    rw [insertByLE] at hy
    split at hy
    · rcases List.mem_cons.mp hy with h | h
      · exact Or.inl h
      · exact Or.inr h
    · rcases List.mem_cons.mp hy with h | h
      · exact Or.inr (by simp [h])
      · rcases ih h with h' | h'
        · exact Or.inl h'
        · exact Or.inr (by simp [h'])

theorem pairwise_insertByLE {le : Order → Order → Bool}
    (htot : ∀ a b, le a b = false → le b a = true)
    (htr : ∀ a b c, le a b = true → le b c = true → le a c = true)
    (o : Order) :
    ∀ {l : List Order}, l.Pairwise (fun a b => le a b = true) →
    (insertByLE le o l).Pairwise (fun a b => le a b = true) := by
  intro l
  induction l with
  | nil => intro _; simp [insertByLE]
  | cons x xs ih =>
    intro h
    rcases List.pairwise_cons.mp h with ⟨hx, hxs⟩
    rw [insertByLE]
    split
    · next hle =>
      refine List.pairwise_cons.mpr ⟨?_, h⟩
      intro y hy
      rcases List.mem_cons.mp hy with h' | h'
      · subst h'; exact hle
      · exact htr o x y hle (hx y h')
    · next hle =>
      refine List.pairwise_cons.mpr ⟨?_, ih hxs⟩
      intro y hy
      rcases insertByLE_mem hy with h' | h'
      · rw [h']
        exact htot o x (by simpa using hle)
      · exact hx y h'

theorem pairwise_sortByLE {le : Order → Order → Bool}
    (htot : ∀ a b, le a b = false → le b a = true)
    (htr : ∀ a b c, le a b = true → le b c = true → le a c = true) :
    ∀ (l : List Order), (sortByLE le l).Pairwise (fun a b => le a b = true)
  | [] => by simp [sortByLE]
  | x :: xs => by
    rw [sortByLE]
    exact pairwise_insertByLE htot htr x (pairwise_sortByLE htot htr xs)

theorem createdDescLE_total (a b : Order) : createdDescLE a b = false → createdDescLE b a = true := by
  unfold createdDescLE
  intro h
  simp only [decide_eq_false_iff_not, Nat.not_le] at h
  simp only [decide_eq_true_eq]
  omega

theorem createdDescLE_trans (a b c : Order) :
    createdDescLE a b = true → createdDescLE b c = true → createdDescLE a c = true := by
  unfold createdDescLE
  simp only [decide_eq_true_eq]
  omega

/-! ## Claim C3 -/

/-- C3: intent classification evaluates the eight pattern rules in the
fixed order create_order, track_order, next_pickup, list_orders,
cancel_order, delete_order, update_address, update_order against the
lower-cased input and returns the first rule that matches, returning
`general` when none match; in particular, "update address of ORD-1" is
classified as update_address (so not as update_order). -/
theorem C3_intent_first_match :
    (∀ t : String, (parseIntent t).intent = firstMatchIntent t) ∧
    parseIntent "update address of ORD-1" =
      { intent := "update_address", trackingId := none } := by
  constructor
  · intro t
    unfold parseIntent firstMatchIntent specRuleTable
    simp only [String.toList]
    by_cases h1 : ruleCreate ((jsToLower t).data) = true
    · simp [h1]
    · simp only [Bool.not_eq_true] at h1
      simp only [h1, Bool.false_eq_true, if_false, List.find?]
      cases h2 : trackCapture ((jsToLower t).data) with
      | some id => simp
      | none =>
        by_cases h3 : ruleNext ((jsToLower t).data) = true
        · simp [h3]
        · simp only [Bool.not_eq_true] at h3
          simp only [h3, Bool.false_eq_true, if_false, Option.isSome_none]
          by_cases h4 : ruleList ((jsToLower t).data) = true
          · simp [h4]
          · simp only [Bool.not_eq_true] at h4
            simp only [h4, Bool.false_eq_true, if_false]
            by_cases h5 : ruleCancel ((jsToLower t).data) = true
            · simp [h5]
            · simp only [Bool.not_eq_true] at h5
              simp only [h5, Bool.false_eq_true, if_false]
              by_cases h6 : ruleDelete ((jsToLower t).data) = true
              · simp [h6]
              · simp only [Bool.not_eq_true] at h6
                simp only [h6, Bool.false_eq_true, if_false]
                by_cases h7 : ruleAddress ((jsToLower t).data) = true
                · simp [h7]
                · simp only [Bool.not_eq_true] at h7
                  simp only [h7, Bool.false_eq_true, if_false]
                  by_cases h8 : ruleUpdate ((jsToLower t).data) = true
                  · simp [h8]
                  · simp only [Bool.not_eq_true] at h8
                    simp [h8]
  · decide

/-! ## Claim C4 (code bug) -/

/-- C4: the create→track round trip fails in the code.  Creating an order
returns trackingId `ORD-zzzABCDEF`, but immediately issuing
`track order ORD-zzzABCDEF` answers `order_not_found`, not `track_order`:
`parseIntent` matches the track rule against the lower-cased text, so the
captured id is `ord-zzzabcdef`, and the case-sensitive store lookup misses
the stored mixed-case id. -/
theorem C4_roundtrip_code_bug :
    (aiReply cexEnv "create order bread" "demo-user" []).1.action = "created_order" ∧
    (aiReply cexEnv "create order bread" "demo-user" []).1.orderTrackingId =
      some "ORD-zzzABCDEF" ∧
    (aiReply cexEnv "create order bread" "demo-user" []).1.orderItem =
      some "create order bread" ∧
    (parseIntent "track order ORD-zzzABCDEF").trackingId = some "ord-zzzabcdef" ∧
    (aiReply cexEnv "track order ORD-zzzABCDEF" "demo-user" cexStore).1.action =
      "order_not_found" ∧
    (aiReply cexEnv "track order ORD-zzzABCDEF" "demo-user" cexStore).1.action ≠
      "track_order" := by
  decide

/-! ## Counterexamples for the corrected claims -/

/-- C1 counterexample: a create-order request in a no-backend environment
returns `created_order` with trackingId `ORD-zzzABCDEF`, which does not
match `^ORD-[A-Z0-9]+$` (the base-36 timestamp part is lowercase); and
with an extraction result whose `qty` is `-5`, the created order's `qty`
is `-5 < 1`. -/
theorem C1_counterexample :
    ((aiReply cexEnv "create order bread" "demo-user" []).1.action = "created_order" ∧
     (aiReply cexEnv "create order bread" "demo-user" []).1.orderTrackingId =
       some "ORD-zzzABCDEF" ∧
     matchesOrdUpper "ORD-zzzABCDEF" = false) ∧
    ((aiReply { cexEnv with llm := .parsed { qty := some (-5) } }
        "create order bread" "demo-user" []).1.action = "created_order" ∧
     (aiReply { cexEnv with llm := .parsed { qty := some (-5) } }
        "create order bread" "demo-user" []).1.orderQty = some (-5) ∧
     ¬(1 ≤ (-5 : Int))) := by
  decide

/-- C5 counterexample: with an existing order `ORD-ADD1`, `item = "bread"`,
the command `update order ORD-ADD1 add juice and status shipped` stores
`item = "bread, 1"` (the case-insensitive split on `add` fires inside the
trackingId first), not `"bread, juice"`; and with an existing order
`ORD-abc1` (a generated-style id containing lowercase), the same command
answers `order_not_found` and stores nothing, because the extracted id is
upper-cased before the case-sensitive lookup. -/
theorem C5_counterexample :
    ((aiReply cexEnv "update order ORD-ADD1 add juice and status shipped" "demo-user"
        [{ trackingId := "ORD-ADD1", item := "bread", createdAt := 1 }]).1.action =
      "update_order" ∧
     (aiReply cexEnv "update order ORD-ADD1 add juice and status shipped" "demo-user"
        [{ trackingId := "ORD-ADD1", item := "bread", createdAt := 1 }]).1.orderStatus =
      some "shipped" ∧
     (aiReply cexEnv "update order ORD-ADD1 add juice and status shipped" "demo-user"
        [{ trackingId := "ORD-ADD1", item := "bread", createdAt := 1 }]).1.orderItem =
      some "bread, 1" ∧
     some "bread, 1" ≠ some "bread, juice") ∧
    ((aiReply cexEnv "update order ORD-abc1 add juice and status shipped" "demo-user"
        [{ trackingId := "ORD-abc1", item := "bread", createdAt := 1 }]).1.action =
      "order_not_found" ∧
     (aiReply cexEnv "update order ORD-abc1 add juice and status shipped" "demo-user"
        [{ trackingId := "ORD-abc1", item := "bread", createdAt := 1 }]).2 =
      [{ trackingId := "ORD-abc1", item := "bread", createdAt := 1 }]) := by
  decide

/-- C6 counterexample: `ord-a` is a tracking id not present in the store
(which holds only `ORD-A`), yet `cancel order ord-a` does not return
`order = null`: the captured id is upper-cased before the lookup, so the
stored order `ORD-A` is found and cancelled. -/
theorem C6_counterexample :
    (∀ o ∈ [({ trackingId := "ORD-A", item := "x", createdAt := 5 } : Order)],
       o.trackingId ≠ "ord-a") ∧
    (aiReply cexEnv "cancel order ord-a" "demo-user"
        [{ trackingId := "ORD-A", item := "x", createdAt := 5 }]).1.action =
      "cancel_order" ∧
    (aiReply cexEnv "cancel order ord-a" "demo-user"
        [{ trackingId := "ORD-A", item := "x", createdAt := 5 }]).1.order =
      RespOrder.full { trackingId := "ORD-A", item := "x", createdAt := 5,
                       status := "cancelled" } ∧
    (aiReply cexEnv "cancel order ord-a" "demo-user"
        [{ trackingId := "ORD-A", item := "x", createdAt := 5 }]).1.order ≠
      RespOrder.null := by
  decide

/-- C7 counterexample: when the current time of day is exactly 17:00:00.000
("at or after 17:00"), `extractPickupTime "5 pm"` returns *today's* date at
17:00, not tomorrow's. -/
theorem C7_counterexample :
    (20000 * msPerDay + 61200000) % msPerDay = 61200000 ∧
    extractPickupTime (20000 * msPerDay + 61200000) "5 pm" =
      some (20000 * msPerDay + 61200000) ∧
    (20000 * msPerDay + 61200000 : Nat) ≠ 20001 * msPerDay + 61200000 := by
  decide

/-- C8 counterexample: with two stored orders sharing `createdAt = 7`, the
`list_orders` result is not *strictly* descending in creation time. -/
theorem C8_counterexample :
    ¬ ((aiReply cexEnv "list orders" "demo-user"
        [{ trackingId := "ORD-1", createdAt := 7 },
         { trackingId := "ORD-2", createdAt := 7 }]).1.orders.Pairwise
        fun a b => b.createdAt < a.createdAt) := by
  decide

/-- C10 counterexample: for the created order `ORD-zzzABCDEF` (whose
generated trackingId contains lowercase letters), `cancel order` with the
exact id indeed answers `order = null` — but `track_order` with the same
exact id does **not** succeed: it answers `order_not_found`, because the
track rule captures from the lower-cased text. -/
theorem C10_counterexample :
    (natToBase36 46655).toList.any Char.isLower = true ∧
    (aiReply cexEnv "cancel order ORD-zzzABCDEF" "demo-user" cexStore).1.order =
      RespOrder.null ∧
    (aiReply cexEnv "track order ORD-zzzABCDEF" "demo-user" cexStore).1.action =
      "order_not_found" ∧
    (aiReply cexEnv "track order ORD-zzzABCDEF" "demo-user" cexStore).1.action ≠
      "track_order" := by
  decide

/-! ## Claim C7 (amended) -/

/-- C7 (amended): `extractPickupTime "5 pm"` evaluated when the current
time of day is strictly before 17:00 — or exactly 17:00:00.000, since the
roll test is a strict `<` — returns today's date at 17:00, and evaluated
strictly after 17:00:00.000 returns tomorrow's date at 17:00; generally, a
parsed time-of-day that has already passed today rolls to tomorrow. -/
theorem C7_pickup_time_roll :
    (∀ now : Nat, now % msPerDay < 61200000 →
       extractPickupTime now "5 pm" = some (now / msPerDay * msPerDay + 61200000)) ∧
    (∀ now : Nat, now % msPerDay = 61200000 →
       extractPickupTime now "5 pm" = some (now / msPerDay * msPerDay + 61200000)) ∧
    (∀ now : Nat, 61200000 < now % msPerDay →
       extractPickupTime now "5 pm" =
         some (now / msPerDay * msPerDay + 61200000 + msPerDay)) ∧
    (∀ (now : Nat) (text : String) (h min : Nat),
       parsePickupHM text = some (h, min) →
       now / msPerDay * msPerDay + (h * 3600000 + min * 60000) < now →
       extractPickupTime now text =
         some (now / msPerDay * msPerDay + (h * 3600000 + min * 60000) + msPerDay)) := by
  refine ⟨?_, ?_, ?_, ?_⟩
  · intro now hlt
    rw [extractPickupTime, show parsePickupHM "5 pm" = some (17, 0) from by decide]
    simp only [Option.map, msPerDay] at *
    rw [if_neg (by omega)]
  · intro now heq
    rw [extractPickupTime, show parsePickupHM "5 pm" = some (17, 0) from by decide]
    simp only [Option.map, msPerDay] at *
    rw [if_neg (by omega)]
  · intro now hgt
    rw [extractPickupTime, show parsePickupHM "5 pm" = some (17, 0) from by decide]
    simp only [Option.map, msPerDay] at *
    rw [if_pos (by omega)]
  · intro now text h min hparse hlt
    rw [extractPickupTime, hparse]
    simp only [Option.map, msPerDay] at *
    rw [if_pos (by omega)]

/-- Witness for C7: at 10:00 the parsed "5 pm" stays today; at 18:00 it
rolls to tomorrow. -/
theorem C7_pickup_time_roll_witness :
    ((20000 * msPerDay + 36000000) % msPerDay < 61200000 ∧
     extractPickupTime (20000 * msPerDay + 36000000) "5 pm" =
       some (20000 * msPerDay + 61200000)) ∧
    (61200000 < (20000 * msPerDay + 64800000) % msPerDay ∧
     extractPickupTime (20000 * msPerDay + 64800000) "5 pm" =
       some (20001 * msPerDay + 61200000)) := by
  refine ⟨⟨by decide, ?_⟩, ⟨by decide, ?_⟩⟩
  · exact (C7_pickup_time_roll.1 (20000 * msPerDay + 36000000) (by decide)).trans (by decide)
  · exact (C7_pickup_time_roll.2.2.1 (20000 * msPerDay + 64800000) (by decide)).trans (by decide)

/-! ## Claim C1 (amended) -/

/-- Every tracking id produced by `makeTrackingId` matches
`^ORD-[A-Za-z0-9]+$` when the random fragment is made of base-36
characters. -/
theorem makeTrackingId_anycase (ts : Nat) (rand : String)
    (hrand : ∀ c ∈ rand.toList, isBase36Char c = true) :
    matchesOrdAnyCase (makeTrackingId ts rand) = true := by
  unfold matchesOrdAnyCase makeTrackingId
  rw [string_toList_append, string_toList_append]
  rw [List.append_assoc]
  refine Bool.and_eq_true_iff.mpr ⟨listStartsWith_append _ _, ?_⟩
  have h4 : ("ORD-".toList).length = 4 := rfl
  rw [← h4, List.drop_left]
  have hb := natToBase36List_props ts
  refine Bool.and_eq_true_iff.mpr ⟨?_, ?_⟩
  · simp [natToBase36, hb.1]
  · rw [List.all_append]
    refine Bool.and_eq_true_iff.mpr ⟨?_, ?_⟩
    · rw [List.all_eq_true]
      intro c hc
      exact isBase36Char_alphanum (hb.2 c hc)
    · rw [List.all_eq_true]
      intro c hc
      rcases List.mem_map.mp (by simpa [jsToUpper] using hc) with ⟨x, hx, rfl⟩
      exact jsUpperChar_alphanum (isBase36Char_alphanum (hrand x hx))

/-- C1 (amended): for every input classified as a create-order phrasing and
every extraction outcome, the response action is `created_order` and the
returned order's trackingId matches `^ORD-[A-Za-z0-9]+$` (the base-36
timestamp part may be lowercase, so the spec's `^ORD-[A-Z0-9]+$` had to be
relaxed); the returned `qty` is the JS-`||` default of the extracted qty,
and it is `≥ 1` whenever the extracted qty is `≥ 1` or falsy — in
particular under the deterministic fallback. -/
theorem C1_create_order_response (env : Env) (text userId : String) (store : List Order)
    (hintent : (parseIntent text).intent = "create_order")
    (hrand : ∀ c ∈ env.rand.toList, isBase36Char c = true) :
    (aiReply env text userId store).1.action = "created_order" ∧
    (aiReply env text userId store).1.orderTrackingId =
      some (makeTrackingId env.ts env.rand) ∧
    matchesOrdAnyCase (makeTrackingId env.ts env.rand) = true ∧
    (aiReply env text userId store).1.orderQty =
      some (jsOrInt (extractOrderFieldsWithLLM env.llm text).qty 1) ∧
    ((1 ≤ (extractOrderFieldsWithLLM env.llm text).qty ∨
      (extractOrderFieldsWithLLM env.llm text).qty = 0) →
     1 ≤ jsOrInt (extractOrderFieldsWithLLM env.llm text).qty 1) := by
  refine ⟨?_, ?_, makeTrackingId_anycase env.ts env.rand hrand, ?_, ?_⟩
  · unfold aiReply; simp [hintent]
  · unfold aiReply; simp [hintent, Response.orderTrackingId]
  · unfold aiReply; simp [hintent, Response.orderQty]
  · intro h
    rcases h with h | h
    · rw [jsOrInt, if_neg (by simp only [beq_iff_eq]; omega)]
      exact h
    · rw [jsOrInt, if_pos (by simp only [beq_iff_eq]; omega)]

/-- Witness for C1 at a concrete create-order request. -/
theorem C1_create_order_response_witness :
    (parseIntent "create order bread").intent = "create_order" ∧
    (∀ c ∈ cexEnv.rand.toList, isBase36Char c = true) ∧
    (aiReply cexEnv "create order bread" "demo-user" []).1.action = "created_order" :=
  ⟨by decide, by decide,
   (C1_create_order_response cexEnv "create order bread" "demo-user" []
     (by decide) (by decide)).1⟩

/-! ## Claim C2 -/

/-- C2: when the structured-extraction backend is absent, throws, or
returns unparsable output, the extraction resolves to the deterministic
fallback (`item` = original text, `qty = 1`, `amount = 200`,
`expenses = 50`), `create_order` still succeeds with action
`created_order` carrying those fields, and no error is propagated. -/
theorem C2_fallback_create (env : Env) (text userId : String) (store : List Order)
    (hintent : (parseIntent text).intent = "create_order")
    (hfail : env.llm = .noBackend ∨ env.llm = .callThrows ∨ env.llm = .unparsable) :
    extractOrderFieldsWithLLM env.llm text = fallbackExtracted text ∧
    (aiReply env text userId store).1.action = "created_order" ∧
    (aiReply env text userId store).1.isError = false ∧
    (aiReply env text userId store).1.orderItem = some text ∧
    (aiReply env text userId store).1.orderQty = some 1 ∧
    (aiReply env text userId store).1.orderAmount = some 200 ∧
    (aiReply env text userId store).1.orderExpenses = some 50 := by
  have hext : extractOrderFieldsWithLLM env.llm text = fallbackExtracted text := by
    rcases hfail with h | h | h <;> rw [h] <;> rfl
  refine ⟨hext, ?_⟩
  unfold aiReply
  simp [hintent, hext, fallbackExtracted, jsOrInt, jsStrOrNull,
        Response.orderItem, Response.orderQty, Response.orderAmount, Response.orderExpenses]

/-- Witness for C2 at a concrete create-order request with no backend. -/
theorem C2_fallback_create_witness :
    (parseIntent "create order bread").intent = "create_order" ∧
    cexEnv.llm = LLMOutcome.noBackend ∧
    ((aiReply cexEnv "create order bread" "demo-user" []).1.action = "created_order" ∧
     (aiReply cexEnv "create order bread" "demo-user" []).1.orderItem =
       some "create order bread") :=
  ⟨by decide, rfl,
   (C2_fallback_create cexEnv "create order bread" "demo-user" [] (by decide) (Or.inl rfl)).2.1,
   (C2_fallback_create cexEnv "create order bread" "demo-user" [] (by decide) (Or.inl rfl)).2.2.2.1⟩

/-! ## Claim C8 (amended) -/

/-- C8 (amended): for every store state, the `list_orders` intent returns
at most 10 orders, ordered by (non-strictly) descending creation time —
orders created in the same millisecond tie, so the ordering cannot be
strict. -/
theorem C8_list_orders_bounded_sorted (env : Env) (text userId : String)
    (store : List Order)
    (hintent : (parseIntent text).intent = "list_orders") :
    (aiReply env text userId store).1.orders.length ≤ 10 ∧
    (aiReply env text userId store).1.orders.Pairwise
      (fun a b => b.createdAt ≤ a.createdAt) := by
  have hresp : (aiReply env text userId store).1.orders =
      (sortByLE createdDescLE store).take 10 := by
    unfold aiReply
    simp [hintent]
  rw [hresp]
  constructor
  · exact List.length_take_le 10 _
  · have hp := pairwise_sortByLE createdDescLE_total createdDescLE_trans store
    have hs := List.Pairwise.sublist (List.take_sublist 10 _) hp
    exact hs.imp (by intro a b hab; simpa [createdDescLE] using hab)

/-- Witness for C8 at a concrete list-orders request. -/
theorem C8_list_orders_bounded_sorted_witness :
    (parseIntent "list orders").intent = "list_orders" ∧
    ((aiReply cexEnv "list orders" "demo-user" cexStore).1.orders.length ≤ 10 ∧
     (aiReply cexEnv "list orders" "demo-user" cexStore).1.orders.Pairwise
       (fun a b => b.createdAt ≤ a.createdAt)) :=
  ⟨by decide,
   C8_list_orders_bounded_sorted cexEnv "list orders" "demo-user" cexStore (by decide)⟩

/-! ## Scanner and cancel-branch helper lemmas -/

theorem scanWithPrev_first {f : Option Char → List Char → Option α}
    {prev : Option Char} {l : List Char} {r : α}
    (h : f prev l = some r) : scanWithPrev f prev l = some r := by
  cases l with
  | nil => rw [scanWithPrev, h]
  | cons c cs => rw [scanWithPrev, h]

theorem string_mk_toList (s : String) : (⟨s.toList⟩ : String) = s := rfl

theorem cancelCapture_prefix (U : String)
    (hU1 : U.toList ≠ [])
    (hU2 : ∀ c ∈ U.toList, isIdChar c = true) :
    cancelCapture ("cancel order " ++ U) = some U := by
  unfold cancelCapture
  rw [string_toList_append]
  have hmatch : matchCancelAt ("cancel order ".toList ++ U.toList) = some U.toList := by
    unfold matchCancelAt
    rw [if_pos (ciStartsWith_of_lower _ (by decide))]
    have h13 : ("cancel order ".toList).length = 13 := rfl
    rw [← h13, List.drop_left]
    rw [takeWhile_all hU2]
    rw [if_neg (by simpa using hU1)]
  have hf : (fun (_ : Option Char) (l : List Char) => matchCancelAt l) none
      ("cancel order ".toList ++ U.toList) = some U.toList := hmatch
  rw [scanWithPrev_first hf]
  simp only [Option.map]
  exact congrArg some (string_mk_toList U)

theorem strContains_of_prefix {a : String} (b p : String)
    (h : listStartsWith a.toList p.toList = true) : strContains (a ++ b) p = true := by
  unfold strContains
  rw [string_toList_append]
  exact listContainsPat_of_startsWith (listStartsWith_extend _ h)

/-- The cancel branch on `cancel order <U>` when the upper-cased capture is
not in the store: `cancel_order` action, null order, "Couldn't find" reply,
store untouched. -/
theorem cancel_branch_not_found (env : Env) (userId U : String) (store : List Order)
    (hU1 : U.toList ≠ []) (hU2 : ∀ c ∈ U.toList, isIdChar c = true)
    (hintent : (parseIntent ("cancel order " ++ U)).intent = "cancel_order")
    (hnot : ∀ o ∈ store, o.trackingId ≠ jsToUpper U) :
    (aiReply env ("cancel order " ++ U) userId store).1.action = "cancel_order" ∧
    (aiReply env ("cancel order " ++ U) userId store).1.order = RespOrder.null ∧
    strContains (aiReply env ("cancel order " ++ U) userId store).1.reply
      "Couldn\x27t find" = true ∧
    (aiReply env ("cancel order " ++ U) userId store).2 = store := by
  have hcap := cancelCapture_prefix U hU1 hU2
  have hfind := @findOneAndUpdate_not_found (jsToUpper U)
      (fun o => { o with status := "cancelled" }) store hnot
  unfold aiReply
  simp [hintent, hcap, hfind]
  apply strContains_of_prefix
  rw [string_toList_append]
  exact listStartsWith_extend _ (by decide)

/-! ## Claim C6 (amended) -/

/-- C6 (amended): for every id token U whose **upper-casing** is not
present in the store (the branch upper-cases the capture before the
lookup, so "U itself not present" does not suffice), `cancel order U`
returns action `cancel_order`, a null order, a reply containing "Couldn't
find", and leaves the store unchanged; and every cancel-intent input with
no id token after "cancel order" gets the `ask_for_order_id` clarification
with no mutation. -/
theorem C6_cancel_unknown_or_missing_id (env : Env) (userId : String) :
    (∀ (U : String) (store : List Order),
       U.toList ≠ [] → (∀ c ∈ U.toList, isIdChar c = true) →
       (parseIntent ("cancel order " ++ U)).intent = "cancel_order" →
       (∀ o ∈ store, o.trackingId ≠ jsToUpper U) →
       (aiReply env ("cancel order " ++ U) userId store).1.action = "cancel_order" ∧
       (aiReply env ("cancel order " ++ U) userId store).1.order = RespOrder.null ∧
       strContains (aiReply env ("cancel order " ++ U) userId store).1.reply
         "Couldn\x27t find" = true ∧
       (aiReply env ("cancel order " ++ U) userId store).2 = store) ∧
    (∀ (text : String) (store : List Order),
       (parseIntent text).intent = "cancel_order" →
       cancelCapture text = none →
       (aiReply env text userId store).1.action = "ask_for_order_id" ∧
       (aiReply env text userId store).2 = store) := by
  refine ⟨fun U store h1 h2 h3 h4 => cancel_branch_not_found env userId U store h1 h2 h3 h4, ?_⟩
  intro text store hintent hcap
  unfold aiReply
  simp [hintent, hcap]

/-- Witness for C6: an unknown id over the empty store, and a cancel
request with no id token. -/
theorem C6_cancel_unknown_or_missing_id_witness :
    (("ORD-XYZ" : String).toList ≠ [] ∧
     (parseIntent "cancel order ORD-XYZ").intent = "cancel_order" ∧
     (aiReply cexEnv "cancel order ORD-XYZ" "demo-user" []).1.order = RespOrder.null) ∧
    ((parseIntent "cancel order").intent = "cancel_order" ∧
     cancelCapture "cancel order" = none ∧
     (aiReply cexEnv "cancel order" "demo-user" []).1.action = "ask_for_order_id") := by
  refine ⟨⟨by decide, by decide, ?_⟩, by decide, by decide, ?_⟩
  · exact ((C6_cancel_unknown_or_missing_id cexEnv "demo-user").1 "ORD-XYZ" []
      (by decide) (by decide) (by decide) (by intro o h; cases h)).2.1
  · exact ((C6_cancel_unknown_or_missing_id cexEnv "demo-user").2 "cancel order" []
      (by decide) (by decide)).1

/-! ## Claim C10 (amended) -/

theorem jsLowerChar_alphanum {c : Char} (h : c.isAlphanum = true) :
    (jsLowerChar c).isAlphanum = true := by
  rw [char_isAlphanum_iff] at h
  rw [char_isAlphanum_iff, jsLowerChar_toNat]
  split <;> omega

theorem jsLowerChar_idChar {c : Char} (h : isIdChar c = true) :
    isIdChar (jsLowerChar c) = true := by
  unfold isIdChar at h ⊢
  rcases Bool.or_eq_true_iff.mp h with h | h
  · exact Bool.or_eq_true_iff.mpr (Or.inl (jsLowerChar_alphanum h))
  · have hc : c = '-' := by simpa using h
    subst hc
    decide

theorem matchTrackAt_order_prefix (M : List Char)
    (hM : ∀ c ∈ M, isIdChar c = true) (hMne : M ≠ []) :
    matchTrackAt ("track order ".toList ++ M) = some M := by
  have hsplit : "track order ".toList ++ M =
      "track ".toList ++ ("order ".toList ++ M) := rfl
  have hcond1 : ciStartsWith ("track ".toList ++ ("order ".toList ++ M))
      "track ".toList = true := ciStartsWith_of_lower _ (by decide)
  have hcond2 : ciStartsWith ("order ".toList ++ M) "order ".toList = true :=
    ciStartsWith_of_lower _ (by decide)
  have h6 : ("track ".toList).length = 6 := rfl
  have hdrop1 : ("track ".toList ++ ("order ".toList ++ M)).drop 6 =
      "order ".toList ++ M := by rw [← h6, List.drop_left]
  have h6b : ("order ".toList).length = 6 := rfl
  have hdrop2 : ("order ".toList ++ M).drop 6 = M := by rw [← h6b, List.drop_left]
  have hrun : M.takeWhile isIdChar = M := takeWhile_all hM
  unfold matchTrackAt
  rw [hsplit, if_pos hcond1]
  dsimp only
  rw [hdrop1, if_pos hcond2, hdrop2, hrun]
  rw [if_neg (by simpa using hMne)]

theorem map_eq_self_mem {f : Char → Char} :
    ∀ {l : List Char}, l.map f = l → ∀ c ∈ l, f c = c := by
  intro l
  induction l with
  | nil => intro _ c hc; cases hc
  | cons x xs ih =>
    intro h c hc
    rw [List.map_cons] at h
    injection h with h1 h2
    rcases List.mem_cons.mp hc with rfl | hc'
    · exact h1
    · exact ih h2 c hc'

theorem makeTrackingId_toList (ts : Nat) (rand : String) :
    (makeTrackingId ts rand).toList =
      'O' :: 'R' :: 'D' :: '-' :: (natToBase36List ts ++ rand.toList.map jsUpperChar) := by
  unfold makeTrackingId
  rw [string_toList_append, string_toList_append, List.append_assoc]
  rfl

theorem makeTrackingId_chars (ts : Nat) (rand : String)
    (hrand : ∀ c ∈ rand.toList, isBase36Char c = true) :
    ∀ c ∈ (makeTrackingId ts rand).toList, isIdChar c = true := by
  rw [makeTrackingId_toList]
  intro c hc
  simp only [List.mem_cons, List.mem_append] at hc
  rcases hc with rfl | rfl | rfl | rfl | hb | hr
  · decide
  · decide
  · decide
  · decide
  · exact Bool.or_eq_true_iff.mpr
      (Or.inl (isBase36Char_alphanum ((natToBase36List_props ts).2 c hb)))
  · rcases List.mem_map.mp hr with ⟨x, hx, rfl⟩
    exact Bool.or_eq_true_iff.mpr
      (Or.inl (jsUpperChar_alphanum (isBase36Char_alphanum (hrand x hx))))

theorem string_ne_of_head {s t : String}
    (h : s.toList.head? ≠ t.toList.head?) : s ≠ t := by
  intro he
  exact h (congrArg (fun x => x.toList.head?) he)

theorem jsToUpper_ne_of_lower {s : String}
    (h : ∃ c ∈ s.toList, c.isLower = true) : jsToUpper s ≠ s := by
  rcases h with ⟨c, hc, hlow⟩
  intro he
  have hl : s.toList.map jsUpperChar = s.toList := by
    have := congrArg String.toList he
    simpa [jsToUpper] using this
  exact jsUpperChar_ne_of_lower hlow (map_eq_self_mem hl c hc)

/-- The track branch on `track order <tid>` misses every stored order
whose trackingId starts with `O`, because the capture comes from the
lower-cased text. -/
theorem track_branch_lower_miss (env : Env) (userId : String) (tid : String)
    (store : List Order)
    (htid : ∀ c ∈ tid.toList, isIdChar c = true)
    (hne : tid.toList ≠ [])
    (hhead : tid.toList.head? = some 'O')
    (hrule1 : ruleCreate ((jsToLower ("track order " ++ tid)).toList) = false)
    (hstore : ∀ o ∈ store, o.trackingId.toList.head? = some 'O') :
    (aiReply env ("track order " ++ tid) userId store).1.action = "order_not_found" := by
  have htl : (jsToLower ("track order " ++ tid)).toList =
      "track order ".toList ++ tid.toList.map jsLowerChar := by
    rw [jsToLower_toList, string_toList_append, List.map_append]
    rfl
  have hlowne : tid.toList.map jsLowerChar ≠ [] := by
    intro h
    exact hne (List.map_eq_nil_iff.mp h)
  have hMchars : ∀ c ∈ tid.toList.map jsLowerChar, isIdChar c = true := by
    intro c hc
    rcases List.mem_map.mp hc with ⟨x, hx, rfl⟩
    exact jsLowerChar_idChar (htid x hx)
  have hcap : trackCapture ((jsToLower ("track order " ++ tid)).toList) =
      some (tid.toList.map jsLowerChar) := by
    unfold trackCapture
    rw [htl]
    have hf : (fun (_ : Option Char) (l : List Char) => matchTrackAt l) none
        ("track order ".toList ++ tid.toList.map jsLowerChar) =
        some (tid.toList.map jsLowerChar) :=
      matchTrackAt_order_prefix _ hMchars hlowne
    rw [scanWithPrev_first hf]
  have hparse : parseIntent ("track order " ++ tid) =
      { intent := "track_order", trackingId := some ⟨tid.toList.map jsLowerChar⟩ } := by
    unfold parseIntent
    simp only [hrule1, Bool.false_eq_true, if_false, hcap]
  have hfindn : findOne store (⟨tid.toList.map jsLowerChar⟩ : String) = none := by
    apply findOne_eq_none
    intro o ho
    apply string_ne_of_head
    rw [hstore o ho]
    show _ ≠ (tid.toList.map jsLowerChar).head?
    rw [List.head?_map, hhead]
    decide
  have hmkne : (⟨tid.toList.map jsLowerChar⟩ : String) ≠ "" := by
    intro he
    exact hlowne (congrArg String.toList he)
  have hmkne2 : ({ data := List.map jsLowerChar tid.data } : String) ≠ "" := hmkne
  have hfindn2 : findOne store { data := List.map jsLowerChar tid.data } = none := hfindn
  unfold aiReply
  simp [hparse, hfindn2, hmkne2]

/-- C10 (amended): for every created order whose generated trackingId
contains a lowercase letter (any contemporary base-36 timestamp does),
issuing `cancel order <exact id>` upper-cases the captured id before the
lookup and therefore returns order = null with a "Couldn't find" reply,
leaving the store — in particular that order's status — unchanged; but
`track_order` with the same exact id does **not** succeed either: its
capture comes from the lower-cased text, so it answers `order_not_found`. -/
theorem C10_cancel_case_mismatch (env : Env) (userId : String) (ts : Nat) (rand : String)
    (store : List Order)
    (hrand : ∀ c ∈ rand.toList, isBase36Char c = true)
    (hlow : ∃ c ∈ (natToBase36 ts).toList, c.isLower = true)
    (hmem : ∃ o ∈ store, o.trackingId = makeTrackingId ts rand)
    (hupper : ∀ o ∈ store, o.trackingId ≠ jsToUpper (makeTrackingId ts rand))
    (hintentC : (parseIntent ("cancel order " ++ makeTrackingId ts rand)).intent =
      "cancel_order")
    (hstore : ∀ o ∈ store, o.trackingId.toList.head? = some 'O')
    (hrule1 : ruleCreate ((jsToLower ("track order " ++ makeTrackingId ts rand)).toList) =
      false) :
    jsToUpper (makeTrackingId ts rand) ≠ makeTrackingId ts rand ∧
    (aiReply env ("cancel order " ++ makeTrackingId ts rand) userId store).1.action =
      "cancel_order" ∧
    (aiReply env ("cancel order " ++ makeTrackingId ts rand) userId store).1.order =
      RespOrder.null ∧
    strContains
      (aiReply env ("cancel order " ++ makeTrackingId ts rand) userId store).1.reply
      "Couldn\x27t find" = true ∧
    (aiReply env ("cancel order " ++ makeTrackingId ts rand) userId store).2 = store ∧
    (aiReply env ("track order " ++ makeTrackingId ts rand) userId store).1.action =
      "order_not_found" := by
  have htid := makeTrackingId_chars ts rand hrand
  have hne : (makeTrackingId ts rand).toList ≠ [] := by
    rw [makeTrackingId_toList]
    simp
  have hhead : (makeTrackingId ts rand).toList.head? = some 'O' := by
    rw [makeTrackingId_toList]
    rfl
  have hupperne : jsToUpper (makeTrackingId ts rand) ≠ makeTrackingId ts rand := by
    apply jsToUpper_ne_of_lower
    rcases hlow with ⟨c, hc, hl⟩
    refine ⟨c, ?_, hl⟩
    rw [makeTrackingId_toList]
    simp only [List.mem_cons, List.mem_append]
    exact Or.inr (Or.inr (Or.inr (Or.inr (Or.inl hc))))
  have hcancel := cancel_branch_not_found env userId (makeTrackingId ts rand) store
    hne htid hintentC hupper
  have htrack := track_branch_lower_miss env userId (makeTrackingId ts rand) store
    htid hne hhead hrule1 hstore
  exact ⟨hupperne, hcancel.1, hcancel.2.1, hcancel.2.2.1, hcancel.2.2.2, htrack⟩

/-- Witness for C10 at the concrete created order `ORD-zzzABCDEF`. -/
theorem C10_cancel_case_mismatch_witness :
    makeTrackingId 46655 "abcdef" = "ORD-zzzABCDEF" ∧
    (jsToUpper (makeTrackingId 46655 "abcdef") ≠ makeTrackingId 46655 "abcdef" ∧
     (aiReply cexEnv ("cancel order " ++ makeTrackingId 46655 "abcdef") "demo-user"
        cexStore).1.order = RespOrder.null ∧
     (aiReply cexEnv ("track order " ++ makeTrackingId 46655 "abcdef") "demo-user"
        cexStore).1.action = "order_not_found") := by
  have h := C10_cancel_case_mismatch cexEnv "demo-user" 46655 "abcdef" cexStore
    (by decide) (by decide) (by decide) (by decide) (by decide) (by decide) (by decide)
  exact ⟨by decide, h.1, h.2.2.1, h.2.2.2.2.2⟩

/-! ## Claim C9 -/

theorem matchOrdAt_shape {prev : Option Char} {l m : List Char}
    (h : matchOrdAt prev l = some m) :
    ∃ a b c d run, m = a :: b :: c :: d :: run ∧
      jsLowerChar a = 'o' ∧ jsLowerChar b = 'r' ∧ jsLowerChar c = 'd' ∧
      d = '-' ∧ run ≠ [] ∧ ∀ x ∈ run, x.isAlphanum = true := by
  unfold matchOrdAt at h
  rcases l with _ | ⟨a, _ | ⟨b, _ | ⟨c, _ | ⟨d, rest⟩⟩⟩⟩
  · simp at h
  · simp at h
  · simp at h
  · simp at h
  dsimp only at h
  split at h
  · next hcond =>
    simp only [Bool.and_eq_true, beq_iff_eq] at hcond
    split at h
    · cases h
    · next hre =>
      refine ⟨a, b, c, d, rest.takeWhile Char.isAlphanum, ?_,
        hcond.1.1.1.2, hcond.1.1.2, hcond.1.2, hcond.2, by simpa using hre, ?_⟩
      · split at h
        · exact ((Option.some.injEq _ _).mp h).symm
        · split at h
          · cases h
          · exact ((Option.some.injEq _ _).mp h).symm
      · intro x hx
        exact List.mem_takeWhile_imp hx
  · cases h

theorem scanOrd_shape : ∀ (prev : Option Char) (l : List Char) {m : List Char},
    scanWithPrev matchOrdAt prev l = some m →
    ∃ a b c d run, m = a :: b :: c :: d :: run ∧
      jsLowerChar a = 'o' ∧ jsLowerChar b = 'r' ∧ jsLowerChar c = 'd' ∧
      d = '-' ∧ run ≠ [] ∧ ∀ x ∈ run, x.isAlphanum = true := by
  intro prev l
  induction l generalizing prev with
  | nil =>
    intro m h
    rw [scanWithPrev] at h
    rcases hm : matchOrdAt prev [] with _ | r
    · rw [hm] at h; cases h
    · rw [hm] at h
      cases h
      exact matchOrdAt_shape hm
  | cons x xs ih =>
    intro m h
    rw [scanWithPrev] at h
    rcases hm : matchOrdAt prev (x :: xs) with _ | r
    · rw [hm] at h
      exact ih (some x) h
    · rw [hm] at h
      cases h
      exact matchOrdAt_shape hm
theorem jsUpperChar_eq_of_jsLower {a : Char} (t u : Char) (ht : 97 ≤ t.toNat ∧ t.toNat ≤ 122)
    (hu : u.toNat = t.toNat - 32) (h : jsLowerChar a = t) : jsUpperChar a = u := by
  apply char_eq_of_toNat_eq
  rw [jsUpperChar_of_jsLower ht h, hu]

theorem string_ext {s t : String} (h : s.toList = t.toList) : s = t := by
  cases s
  cases t
  exact congrArg String.mk h

/-- C9: tracking-id extraction is case-normalizing and idempotent:
`extractTrackingIdFrom "ship ord-abc123 now"` returns `ORD-ABC123`, and
whenever extraction succeeds, applying it to its own output returns that
output unchanged. -/
theorem C9_tracking_extraction_idempotent :
    extractTrackingIdFrom "ship ord-abc123 now" = some "ORD-ABC123" ∧
    (∀ t s : String, extractTrackingIdFrom t = some s →
       extractTrackingIdFrom s = some s) := by
  constructor
  · decide
  · intro t s h
    unfold extractTrackingIdFrom at h
    rcases Option.map_eq_some'.mp h with ⟨m, hm, hs⟩
    rcases scanOrd_shape none t.toList hm with ⟨a, b, c, d, run, rfl, ha, hb, hc, hd, hrne, hral⟩
    subst hd
    have hsl : s.toList = 'O' :: 'R' :: 'D' :: '-' :: run.map jsUpperChar := by
      rw [← hs, jsToUpper_toList, string_toList_mk]
      simp only [List.map_cons]
      rw [jsUpperChar_eq_of_jsLower 'o' 'O' (by decide) (by decide) ha,
          jsUpperChar_eq_of_jsLower 'r' 'R' (by decide) (by decide) hb,
          jsUpperChar_eq_of_jsLower 'd' 'D' (by decide) (by decide) hc,
          show jsUpperChar '-' = '-' from by decide]
    have hmapal : ∀ x ∈ run.map jsUpperChar, x.isAlphanum = true := by
      intro x hx
      rcases List.mem_map.mp hx with ⟨y, hy, rfl⟩
      exact jsUpperChar_alphanum (hral y hy)
    have hmapne : run.map jsUpperChar ≠ [] := by
      intro hh
      exact hrne (List.map_eq_nil_iff.mp hh)
    have hmatch : matchOrdAt none s.toList = some s.toList := by
      rw [hsl]
      unfold matchOrdAt
      dsimp only
      rw [if_pos (by decide)]
      rw [takeWhile_all hmapal]
      rw [List.drop_length]
      rw [if_neg (by simpa using hmapne)]
    unfold extractTrackingIdFrom
    rw [scanWithPrev_first hmatch]
    have hfix : jsToUpper s = s := by
      apply string_ext
      rw [jsToUpper_toList, hsl]
      simp only [List.map_cons, List.map_map]
      rw [show jsUpperChar 'O' = 'O' from by decide,
          show jsUpperChar 'R' = 'R' from by decide,
          show jsUpperChar 'D' = 'D' from by decide,
          show jsUpperChar '-' = '-' from by decide]
      congr 4
      exact List.map_congr_left fun x _ => jsUpperChar_idem x
    simp only [Option.map]
    rw [string_mk_toList, hfix]

/-- Witness for C9 at the concrete example input. -/
theorem C9_tracking_extraction_idempotent_witness :
    extractTrackingIdFrom "ship ord-abc123 now" = some "ORD-ABC123" ∧
    extractTrackingIdFrom "ORD-ABC123" = some "ORD-ABC123" :=
  ⟨by decide,
   C9_tracking_extraction_idempotent.2 "ship ord-abc123 now" "ORD-ABC123" (by decide)⟩

/-! ## Claim C5 (amended) -/

/-- C5 (amended): an update_order command whose text contains the existing
order's trackingId plus "add juice and status shipped" stores
`item = "bread, juice"` and `status = "shipped"` in one call, **provided**
the extractors behave as in the example: the trackingId is found verbatim
(so it must be uppercase-alphanumeric — a generated id with lowercase
letters is upper-cased away and misses), and the command's first
case-insensitive `add` occurrence is the control keyword (a trackingId
containing `add`, or any earlier status/assign/pickup keyword, changes the
parse, as the counterexample shows). -/
theorem C5_update_add_status (env : Env) (userId : String) (text : String)
    (store : List Order) (o : Order) (tid : String)
    (hintent : (parseIntent text).intent = "update_order")
    (hex : extractTrackingIdFrom text = some tid)
    (hfind : findOne store tid = some o)
    (hitem : o.item = "bread")
    (htid : o.trackingId = tid)
    (hstatus : extractStatus text = some "shipped")
    (hpickup : hasPickupToken text = false)
    (hassign : extractAssignee text = none)
    (haddwb : containsWBci text.toList "add".toList = true)
    (hsplit : ((splitAllCI text.toList "add".toList).drop 1).headD [] =
      " juice and status shipped".toList)
    (hremwb : containsWBci text.toList "remove".toList = false) :
    (aiReply env text userId store).1.action = "update_order" ∧
    (aiReply env text userId store).1.orderItem = some "bread, juice" ∧
    (aiReply env text userId store).1.orderStatus = some "shipped" ∧
    findOne (aiReply env text userId store).2 tid =
      some { o with item := "bread, juice", status := "shipped" } := by
  have hupd : computeUpdates env.now o text =
      { status := some "shipped", pickupTime := none, assignedTo := none,
        item := some "bread, juice" } := by
    unfold computeUpdates
    dsimp only
    rw [hstatus, hpickup, hassign, haddwb, hremwb, hsplit, hitem]
    rfl
  have happ : applyUpdates o (computeUpdates env.now o text) =
      { o with item := "bread, juice", status := "shipped" } := by
    rw [hupd]
    simp [applyUpdates]
  have hfu := @findOneAndUpdate_found tid
      (fun _ => applyUpdates o (computeUpdates env.now o text)) store o
      hfind (by rw [happ]; exact htid)
  have hne : (computeUpdates env.now o text).isEmpty = false := by
    rw [hupd]
    rfl
  simp only [happ] at hfu
  unfold aiReply
  simp only [hintent]
  simp [hex, hfind, hne, happ, hfu.2, Response.orderItem, Response.orderStatus]

/-- Witness for C5 at the concrete example command and order. -/
theorem C5_update_add_status_witness :
    (parseIntent "update order ORD-X1 add juice and status shipped").intent =
      "update_order" ∧
    extractStatus "update order ORD-X1 add juice and status shipped" = some "shipped" ∧
    ((aiReply cexEnv "update order ORD-X1 add juice and status shipped" "demo-user"
        [{ trackingId := "ORD-X1", item := "bread", createdAt := 1 }]).1.orderItem =
      some "bread, juice" ∧
     (aiReply cexEnv "update order ORD-X1 add juice and status shipped" "demo-user"
        [{ trackingId := "ORD-X1", item := "bread", createdAt := 1 }]).1.orderStatus =
      some "shipped") := by
  have h := C5_update_add_status cexEnv "demo-user"
      "update order ORD-X1 add juice and status shipped"
      [{ trackingId := "ORD-X1", item := "bread", createdAt := 1 }]
      { trackingId := "ORD-X1", item := "bread", createdAt := 1 } "ORD-X1"
      (by decide) (by decide) (by decide) (by decide) (by decide) (by decide)
      (by decide) (by decide) (by decide) (by decide) (by decide)
  exact ⟨by decide, by decide, h.2.1, h.2.2.1⟩
